import Mathlib

/-!
Verification development for the ts-lox tree-walking interpreter.

Shallow embedding of the pipeline stages (scanner, parser, resolver,
evaluator) and the runtime object model (environments, functions, classes,
instances), translated from the TypeScript sources:
`src/scanner.ts`, `src/Parser.ts` (src/unnamed/part_007), `src/Resolver.ts`,
`src/Interpreter.ts`, `src/Environment.ts` (src/unnamed/part_004),
`src/LoxClass.ts`, `src/LoxFunction.ts`, `src/LoxInstance.ts`.

JavaScript numbers are modelled as rationals (`Rat`); the scanner produces no
exponent or non-finite literals, and the claims under study never exercise
IEEE-754-specific behaviour.  JS `undefined` and `null` are distinct values
(`Value.vundefined` / `Value.vnull`), as the interpreter distinguishes them in
truthiness and variable lookup.

`TokenType.ts`, `Token.ts`, `Return.ts`, `Break.ts`, `Continue.ts` and
`LoxCallable.ts` are not present under src/; their shapes are fully
determined by their uses in the present files and by the data model of the
specification (Token = kind, lexeme, optional literal, line; Return carries
a value; Break/Continue carry nothing; Callable = arity + call).
-/

set_option maxHeartbeats 1000000

/-- Token kinds.  Modelled from the spec: `TokenType.ts` is not under src/;
the member set is the one referenced by the scanner, parser and interpreter. -/
inductive TT where
  | LEFT_PAREN | RIGHT_PAREN | LEFT_BRACE | RIGHT_BRACE
  | COMMA | DOT | MINUS | PLUS | SEMICOLON | STAR | SLASH
  | PERCENT | HAT
  | BANG | BANG_EQUAL | EQUAL | EQUAL_EQUAL
  | LESS | LESS_EQUAL | GREATER | GREATER_EQUAL
  | PLUS_EQUAL | MINUS_EQUAL | STAR_EQUAL | SLASH_EQUAL
  | STRING | NUMBER | IDENTIFIER
  | AND | CLASS | ELSE | FALSE | FOR | FUN | IF | NIL | OR
  | PRINT | RETURN | SUPER | THIS | TRUE | VAR | WHILE
  | BREAK | CONTINUE
  | EOF
deriving DecidableEq

/-- Literal payload of a token (JS `any`: null, boolean, number or string). -/
inductive LitVal where
  | lnull
  | lbool (b : Bool)
  | lnum (q : Rat)
  | lstr (s : String)
deriving DecidableEq

/-- Modelled from the spec: Token = kind, lexeme text, optional literal
value, source line (`Token.ts` is not under src/). -/
structure Token where
  ttype : TT
  lexeme : String
  literal : LitVal
  line : Nat
deriving DecidableEq

/-! ## AST (`Expr.ts` family in src/unnamed/part_009 plus the `This` node and
the compound-assignment operator token used by `Interpreter.ts`, and
`Stmt.ts`).

The `Variable`, `Assign` and `This` expressions carry a numeric `id`
standing for the node's object identity: the resolver's locals map is keyed
by node identity in the source (`Map<Expr.Expr, number>`), which a shallow
embedding represents as a key drawn from the node itself. -/

mutual

inductive Expr where
  | assign (id : Nat) (name : Token) (op : Token) (value : Expr)
  | binary (left : Expr) (op : Token) (right : Expr)
  | call (callee : Expr) (paren : Token) (args : List Expr)
  | get (obj : Expr) (name : Token)
  | grouping (e : Expr)
  | efunction (name : Token) (params : List Token) (body : List Stmt)
  | literal (v : LitVal)
  | logical (left : Expr) (op : Token) (right : Expr)
  | eset (obj : Expr) (name : Token) (value : Expr)
  | unary (op : Token) (right : Expr)
  | variable (id : Nat) (name : Token)
  | ethis (id : Nat) (keyword : Token)

inductive Stmt where
  | block (stmts : List Stmt)
  | sclass (name : Token) (methods : List Stmt)
  | sbreak (keyword : Token)
  | scont (keyword : Token)
  | expression (e : Expr)
  | sfunction (fnExpr : Expr)
  | sif (cond : Expr) (thenBranch : Stmt) (elseBranch : Option Stmt)
  | swhile (cond : Expr) (body : Stmt)
  | sprint (e : Expr)
  | sreturn (keyword : Token) (value : Option Expr)
  | svar (name : Token) (initializer : Option Expr)

end

/-! ## Scanner (`src/scanner.ts`) -/

/-- `utils.isDigit`. -/
def isDigit (c : Char) : Bool :=
  decide ('0' ≤ c) && decide (c ≤ '9')

/-- `utils.isAlpha`. -/
def isAlpha (c : Char) : Bool :=
  (decide ('a' ≤ c) && decide (c ≤ 'z')) ||
  (decide ('A' ≤ c) && decide (c ≤ 'Z')) ||
  decide (c = '_')

/-- `utils.isAlphaNumeric`. -/
def isAlphaNumeric (c : Char) : Bool :=
  isAlpha c || isDigit c

/-- `CHAR_TO_TOKEN_MAP` in scanner.ts. -/
def charToBasic (c : Char) : Option TT :=
  if c = '(' then some TT.LEFT_PAREN
  else if c = ')' then some TT.RIGHT_PAREN
  else if c = '\x7b' then some TT.LEFT_BRACE
  else if c = '\x7d' then some TT.RIGHT_BRACE
  else if c = ',' then some TT.COMMA
  else if c = '.' then some TT.DOT
  else if c = '-' then some TT.MINUS
  else if c = '+' then some TT.PLUS
  else if c = ';' then some TT.SEMICOLON
  else if c = '*' then some TT.STAR
  else none

/-- `KEYWORDS` table in scanner.ts. -/
def keywordType (s : String) : Option TT :=
  if s = "and" then some TT.AND
  else if s = "class" then some TT.CLASS
  else if s = "else" then some TT.ELSE
  else if s = "false" then some TT.FALSE
  else if s = "for" then some TT.FOR
  else if s = "fun" then some TT.FUN
  else if s = "if" then some TT.IF
  else if s = "nil" then some TT.NIL
  else if s = "or" then some TT.OR
  else if s = "print" then some TT.PRINT
  else if s = "return" then some TT.RETURN
  else if s = "super" then some TT.SUPER
  else if s = "this" then some TT.THIS
  else if s = "true" then some TT.TRUE
  else if s = "var" then some TT.VAR
  else if s = "while" then some TT.WHILE
  else none

/-- Scanner state: `source`, `tokens`, `start`, `current`, `line` fields of
class `Scanner`, plus the messages reported through `Lox.errorAtLine`. -/
structure ScanState where
  source : List Char
  tokens : List Token
  start : Nat
  current : Nat
  line : Nat
  errs : List String

/-- JS string indexing; out-of-range access is never consumed on the paths
the scanner guards with `isAtEnd`. -/
def charAt (cs : List Char) (i : Nat) : Char :=
  cs.getD i (Char.ofNat 0)

def Scanner.isAtEnd (s : ScanState) : Bool :=
  decide (s.source.length ≤ s.current)

/-- `Scanner.advance`: consume and return the current character. -/
def Scanner.advance (s : ScanState) : Char × ScanState :=
  (charAt s.source s.current, { s with current := s.current + 1 })

/-- `Scanner.addToken`: lexeme is `source.substring(start, current)`. -/
def Scanner.addToken (s : ScanState) (t : TT) (lit : LitVal) : ScanState :=
  let text := String.mk ((s.source.drop s.start).take (s.current - s.start))
  { s with tokens := s.tokens ++ [⟨t, text, lit, s.line⟩] }

/-- `Scanner.match`: conditional single-character lookahead consumption. -/
def Scanner.matchChar (s : ScanState) (expected : Char) : Bool × ScanState :=
  if Scanner.isAtEnd s || decide (charAt s.source s.current ≠ expected) then
    (false, s)
  else
    (true, { s with current := s.current + 1 })

/-- `Scanner.peek`. -/
def Scanner.peek (s : ScanState) : Char :=
  if Scanner.isAtEnd s then Char.ofNat 0 else charAt s.source s.current

/-- `Scanner.peekNext`. -/
def Scanner.peekNext (s : ScanState) : Char :=
  if decide (s.source.length ≤ s.current + 1) then Char.ofNat 0
  else charAt s.source (s.current + 1)

def Scanner.pushErr (s : ScanState) (m : String) : ScanState :=
  { s with errs := s.errs ++ [m] }

/-- Loop of `Scanner.string`: consume until the closing delimiter,
counting newlines.  The fuel exceeds the remaining input length, so the
loop always terminates exactly as the source loop does. -/
def Scanner.stringLoop : Nat → ScanState → ScanState
  | 0, s => s
  | f + 1, s =>
    if decide (Scanner.peek s = '"') || Scanner.isAtEnd s then s
    else
      let s1 := if Scanner.peek s = '\n' then { s with line := s.line + 1 } else s
      Scanner.stringLoop f (Scanner.advance s1).2

/-- `Scanner.string`. -/
def Scanner.scanString (s : ScanState) : ScanState :=
  let s1 := Scanner.stringLoop (s.source.length + 1) s
  let s2 := if Scanner.isAtEnd s1 then Scanner.pushErr s1 "Unterminated string." else s1
  let s3 := (Scanner.advance s2).2
  let value := String.mk (((s3.source.drop (s3.start + 1))).take (s3.current - 1 - (s3.start + 1)))
  Scanner.addToken s3 TT.STRING (.lstr value)

/-- Digit-consumption loop shared by both halves of `Scanner.number`. -/
def Scanner.digitsLoop : Nat → ScanState → ScanState
  | 0, s => s
  | f + 1, s =>
    if isDigit (Scanner.peek s) then Scanner.digitsLoop f (Scanner.advance s).2
    else s

def natOfDigits (cs : List Char) : Nat :=
  cs.foldl (fun acc c => 10 * acc + (c.toNat - '0'.toNat)) 0

/-- Value of a numeric lexeme: `Number.parseFloat` restricted to the
integer/decimal shapes the scanner produces. -/
def ratOfLexeme (cs : List Char) : Rat :=
  let intPart := cs.takeWhile isDigit
  let rest := cs.drop intPart.length
  match rest with
  | '.' :: frac =>
    (natOfDigits intPart : Rat) + (natOfDigits frac : Rat) / ((10 : Rat) ^ frac.length)
  | _ => (natOfDigits intPart : Rat)

/-- `Scanner.number`. -/
def Scanner.scanNumber (s : ScanState) : ScanState :=
  let s1 := Scanner.digitsLoop (s.source.length + 1) s
  let s2 :=
    if isDigit (Scanner.peekNext s1) && decide (Scanner.peek s1 = '.') then
      Scanner.digitsLoop (s1.source.length + 1) (Scanner.advance s1).2
    else s1
  let lex := (s2.source.drop s2.start).take (s2.current - s2.start)
  Scanner.addToken s2 TT.NUMBER (.lnum (ratOfLexeme lex))

/-- Loop of `Scanner.identifier`. -/
def Scanner.identLoop : Nat → ScanState → ScanState
  | 0, s => s
  | f + 1, s =>
    if isAlphaNumeric (Scanner.peek s) then Scanner.identLoop f (Scanner.advance s).2
    else s

/-- `Scanner.identifier`: keyword lookup falls back to IDENTIFIER. -/
def Scanner.scanIdent (s : ScanState) : ScanState :=
  let s1 := Scanner.identLoop (s.source.length + 1) s
  let text := String.mk ((s1.source.drop s1.start).take (s1.current - s1.start))
  Scanner.addToken s1 ((keywordType text).getD TT.IDENTIFIER) .lnull

/-- Comment-consumption loop in the `/` case of `Scanner.scanToken`.
In the source this `while` sits OUTSIDE the `if (!this.match('/'))` block,
so it runs even when a lone `/` was just tokenized. -/
def Scanner.commentLoop : Nat → ScanState → ScanState
  | 0, s => s
  | f + 1, s =>
    if decide (Scanner.peek s ≠ '\n') && !Scanner.isAtEnd s then
      Scanner.commentLoop f (Scanner.advance s).2
    else s

/-- One/two-character operator cases (`!`, `=`, `<`, `>`). -/
def Scanner.twoChar (s : ScanState) (two one : TT) : ScanState :=
  let (m, s1) := Scanner.matchChar s '='
  Scanner.addToken s1 (if m then two else one) .lnull

/-- `Scanner.scanToken`. -/
def Scanner.scanToken (s : ScanState) : ScanState :=
  let (c, s) := Scanner.advance s
  match charToBasic c with
  | some t => Scanner.addToken s t .lnull
  | none =>
    if c = '!' then Scanner.twoChar s TT.BANG_EQUAL TT.BANG
    else if c = '=' then Scanner.twoChar s TT.EQUAL_EQUAL TT.EQUAL
    else if c = '<' then Scanner.twoChar s TT.LESS_EQUAL TT.LESS
    else if c = '>' then Scanner.twoChar s TT.GREATER_EQUAL TT.GREATER
    else if c = '/' then
      -- source: `if (!this.match('/')) addToken(SLASH);` then,
      -- unconditionally, `while (peek() !== newline && !isAtEnd()) advance();`
      let (m, s1) := Scanner.matchChar s '/'
      let s2 := if m then s1 else Scanner.addToken s1 TT.SLASH .lnull
      Scanner.commentLoop (s2.source.length + 1) s2
    else if c = '"' then Scanner.scanString s
    else if c = ' ' || c = '\r' || c = '\t' then s
    else if c = '\n' then { s with line := s.line + 1 }
    else if isDigit c then Scanner.scanNumber s
    else if isAlphaNumeric c then Scanner.scanIdent s
    else Scanner.pushErr s ("Unexpected character: " ++ String.mk [c] ++ ".")

/-- Main loop of `Scanner.scanTokens`; each iteration advances `current`,
so fuel `source.length + 1` never runs out first. -/
def Scanner.scanLoop : Nat → ScanState → ScanState
  | 0, s => s
  | f + 1, s =>
    if Scanner.isAtEnd s then s
    else Scanner.scanLoop f (Scanner.scanToken { s with start := s.current })

/-- `Scanner.scanTokens`: scan everything, then append the EOF token.
Returns the token list and the reported lexical errors. -/
def scanTokens (src : String) : List Token × List String :=
  let cs := src.toList
  let s0 : ScanState := ⟨cs, [], 0, 0, 1, []⟩
  let s1 := Scanner.scanLoop (cs.length + 1) s0
  (s1.tokens ++ [⟨TT.EOF, "", .lnull, s1.line⟩], s1.errs)

/-! ## Parser (`src/Parser.ts`, src/unnamed/part_007)

The parser is fuel-indexed: every call into the mutually recursive grammar
functions decrements the fuel, and fuel `0` behaves like a thrown
`ParseError`.  Any concrete parse succeeds unchanged once the fuel exceeds
the recursion depth actually used.

A result `(none, st)` models a thrown `ParseError` (the error message has
already been pushed on `errs` by `Parser.error` / `Lox.errorAtToken`, of
which we record the message text). -/

/-- Parser state: `tokens`, `current`, plus reported error messages and a
counter supplying the object identity (`id`) of freshly built
Variable/Assign nodes. -/
structure PState where
  tokens : List Token
  current : Nat
  nextId : Nat
  errs : List String

def Parser.defaultTok : Token := ⟨TT.EOF, "", .lnull, 0⟩

/-- `Parser.peek`. -/
def Parser.peekTok (st : PState) : Token :=
  st.tokens.getD st.current Parser.defaultTok

/-- `Parser.previous`. -/
def Parser.prevTok (st : PState) : Token :=
  st.tokens.getD (st.current - 1) Parser.defaultTok

/-- `Parser.isAtEnd`. -/
def Parser.isAtEnd (st : PState) : Bool :=
  decide ((Parser.peekTok st).ttype = TT.EOF)

/-- `Parser.check`. -/
def Parser.checkT (st : PState) (t : TT) : Bool :=
  if Parser.isAtEnd st then false else decide ((Parser.peekTok st).ttype = t)

/-- `Parser.advance`: consume and return the consumed token. -/
def Parser.advanceT (st : PState) : Token × PState :=
  let st1 := if Parser.isAtEnd st then st else { st with current := st.current + 1 }
  (Parser.prevTok st1, st1)

/-- `Parser.match` over a list of candidate types. -/
def Parser.matchT (st : PState) (ts : List TT) : Bool × PState :=
  if ts.any (fun t => Parser.checkT st t) then
    let (_, st1) := Parser.advanceT st
    (true, st1)
  else (false, st)

/-- `Parser.error` → `Lox.errorAtToken`: report, produce the ParseError. -/
def Parser.reportErr (st : PState) (m : String) : PState :=
  { st with errs := st.errs ++ [m] }

/-- `Parser.consume`: `none` models the thrown ParseError. -/
def Parser.consume (st : PState) (t : TT) (m : String) : Option Token × PState :=
  if Parser.checkT st t then
    let (tk, st1) := Parser.advanceT st
    (some tk, st1)
  else (none, Parser.reportErr st m)

def Parser.freshId (st : PState) : Nat × PState :=
  (st.nextId, { st with nextId := st.nextId + 1 })

/-- Loop of `Parser.synchronize`. -/
def Parser.syncLoop : Nat → PState → PState
  | 0, st => st
  | f + 1, st =>
    if Parser.isAtEnd st then st
    else if decide ((Parser.prevTok st).ttype = TT.SEMICOLON) then st
    else if [TT.CLASS, TT.FUN, TT.VAR, TT.FOR, TT.IF, TT.WHILE, TT.PRINT,
              TT.RETURN].contains (Parser.peekTok st).ttype then st
    else Parser.syncLoop f (Parser.advanceT st).2

/-- `Parser.synchronize`. -/
def Parser.synchronize (st : PState) : PState :=
  Parser.syncLoop (st.tokens.length + 1) (Parser.advanceT st).2

/-- Sequencing of parse results that propagates a thrown ParseError. -/
def pbind {α β : Type} (r : Option α × PState)
    (k : α → PState → Option β × PState) : Option β × PState :=
  match r with
  | (none, st) => (none, st)
  | (some a, st) => k a st

mutual

/-- `Parser.declaration`: its `Option Stmt` result means statement-or-null
(the `null` pushed after a caught ParseError); it never itself throws. -/
def Parser.declaration : Nat → PState → Option Stmt × PState
  | 0, st => (none, st)
  | f + 1, st =>
    let inner : Option Stmt × PState :=
      let (mFun, st1) := Parser.matchT st [TT.FUN]
      if mFun then Parser.functionRule f "function" st1
      else
        let (mVar, st2) := Parser.matchT st1 [TT.VAR]
        if mVar then Parser.varDeclaration f st2
        else Parser.statement f st2
    match inner with
    | (none, st1) => (none, Parser.synchronize st1)
    | (some s, st1) => (some s, st1)

/-- `Parser.varDeclaration`. -/
def Parser.varDeclaration : Nat → PState → Option Stmt × PState
  | 0, st => (none, st)
  | f + 1, st =>
    pbind (Parser.consume st TT.IDENTIFIER "Expect variable name.") fun name st1 =>
    let (mEq, st2) := Parser.matchT st1 [TT.EQUAL]
    if mEq then
      pbind (Parser.expression f st2) fun ini st3 =>
      pbind (Parser.consume st3 TT.SEMICOLON "Expect \";\" after variable declaration") fun _ st4 =>
      (some (.svar name (some ini)), st4)
    else
      pbind (Parser.consume st2 TT.SEMICOLON "Expect \";\" after variable declaration") fun _ st3 =>
      (some (.svar name none), st3)

/-- `Parser.statement`. -/
def Parser.statement : Nat → PState → Option Stmt × PState
  | 0, st => (none, st)
  | f + 1, st =>
    let (mFor, st1) := Parser.matchT st [TT.FOR]
    if mFor then Parser.forStatement f st1
    else
      let (mIf, st2) := Parser.matchT st1 [TT.IF]
      if mIf then Parser.ifStatement f st2
      else
        let (mWhile, st3) := Parser.matchT st2 [TT.WHILE]
        if mWhile then Parser.whileStatement f st3
        else
          let (mPrint, st4) := Parser.matchT st3 [TT.PRINT]
          if mPrint then Parser.printStatement f st4
          else
            let (mRet, st5) := Parser.matchT st4 [TT.RETURN]
            if mRet then Parser.returnStatement f st5
            else
              let (mBrace, st6) := Parser.matchT st5 [TT.LEFT_BRACE]
              if mBrace then
                pbind (Parser.blockRule f st6) fun sts st7 => (some (.block sts), st7)
              else Parser.expressionStatement f st6

/-- `Parser.forStatement`: parses the four clauses, then desugars in place
(`body = Block [body, Expression inc]`, `body = While cond body`,
`body = Block [init, body]`).  The clause parsers are split out below
(`forInitClause`, `forCondClause`, `forIncrClause`) purely for structuring;
they are verbatim the corresponding spans of the source method. -/
def Parser.forStatement : Nat → PState → Option Stmt × PState
  | 0, st => (none, st)
  | f + 1, st =>
    pbind (Parser.consume st TT.LEFT_PAREN "Expect \"(\" after \"for\".") fun _ st1 =>
    pbind (Parser.forInitClause f st1) fun initOpt st3 =>
    pbind (Parser.forCondClause f st3) fun cond st4 =>
    pbind (Parser.consume st4 TT.SEMICOLON "Expect \";\" after loop condition.") fun _ st5 =>
    pbind (Parser.forIncrClause f st5) fun incrOpt st6 =>
    pbind (Parser.consume st6 TT.RIGHT_PAREN "Expect \")\" after for clauses.") fun _ st7 =>
    pbind (Parser.statement f st7) fun body st8 =>
    let body1 := match incrOpt with
      | some inc => Stmt.block [body, Stmt.expression inc]
      | none => body
    let body2 := Stmt.swhile cond body1
    let body3 := match initOpt with
      | some ini => Stmt.block [ini, body2]
      | none => body2
    (some body3, st8)

/-- The initializer clause of `Parser.forStatement`: a lone `;`, a var
declaration, or an expression statement. -/
def Parser.forInitClause : Nat → PState → Option (Option Stmt) × PState
  | 0, st => (none, st)
  | f + 1, st =>
    let mSemi := Parser.matchT st [TT.SEMICOLON]
    if mSemi.1 then (some Option.none, mSemi.2)
    else
      let mVar := Parser.matchT mSemi.2 [TT.VAR]
      if mVar.1 then
        pbind (Parser.varDeclaration f mVar.2) fun s st3 => (some (some s), st3)
      else
        pbind (Parser.expressionStatement f mVar.2) fun s st3 => (some (some s), st3)

/-- The condition clause of `Parser.forStatement`: the source initializes
`condition = new Expr.Literal(true)` and overwrites it unless the next
token is the `;`. -/
def Parser.forCondClause : Nat → PState → Option Expr × PState
  | 0, st => (none, st)
  | f + 1, st =>
    if Parser.checkT st TT.SEMICOLON then (some (Expr.literal (.lbool true)), st)
    else Parser.expression f st

/-- The increment clause of `Parser.forStatement`. -/
def Parser.forIncrClause : Nat → PState → Option (Option Expr) × PState
  | 0, st => (none, st)
  | f + 1, st =>
    if Parser.checkT st TT.RIGHT_PAREN then (some Option.none, st)
    else pbind (Parser.expression f st) fun e st6 => (some (some e), st6)

/-- `Parser.ifStatement`. -/
def Parser.ifStatement : Nat → PState → Option Stmt × PState
  | 0, st => (none, st)
  | f + 1, st =>
    pbind (Parser.consume st TT.LEFT_PAREN "Expect \"(\" after \"if\".") fun _ st1 =>
    pbind (Parser.expression f st1) fun cond st2 =>
    pbind (Parser.consume st2 TT.RIGHT_PAREN "Expect \")\" after if condition.") fun _ st3 =>
    pbind (Parser.statement f st3) fun thenB st4 =>
    let (mElse, st5) := Parser.matchT st4 [TT.ELSE]
    if mElse then
      pbind (Parser.statement f st5) fun elseB st6 =>
      (some (.sif cond thenB (some elseB)), st6)
    else (some (.sif cond thenB none), st5)

/-- `Parser.whileStatement`. -/
def Parser.whileStatement : Nat → PState → Option Stmt × PState
  | 0, st => (none, st)
  | f + 1, st =>
    pbind (Parser.consume st TT.LEFT_PAREN "Expect \"(\" after \"while\".") fun _ st1 =>
    pbind (Parser.expression f st1) fun cond st2 =>
    pbind (Parser.consume st2 TT.RIGHT_PAREN "Expect \")\" after while loop condition.") fun _ st3 =>
    pbind (Parser.statement f st3) fun body st4 =>
    (some (.swhile cond body), st4)

/-- `Parser.printStatement`. -/
def Parser.printStatement : Nat → PState → Option Stmt × PState
  | 0, st => (none, st)
  | f + 1, st =>
    pbind (Parser.expression f st) fun value st1 =>
    pbind (Parser.consume st1 TT.SEMICOLON "Expect \";\" after value.") fun _ st2 =>
    (some (.sprint value), st2)

/-- `Parser.returnStatement`; an omitted value stays absent (the source
leaves `value` undefined). -/
def Parser.returnStatement : Nat → PState → Option Stmt × PState
  | 0, st => (none, st)
  | f + 1, st =>
    let keyword := Parser.prevTok st
    pbind
      (if Parser.checkT st TT.SEMICOLON then (some Option.none, st)
       else pbind (Parser.expression f st) fun v st1 => (some (some v), st1))
      fun value st1 =>
    pbind (Parser.consume st1 TT.SEMICOLON "Expect \";\" after return value.") fun _ st2 =>
    (some (.sreturn keyword value), st2)

/-- `Parser.expressionStatement`. -/
def Parser.expressionStatement : Nat → PState → Option Stmt × PState
  | 0, st => (none, st)
  | f + 1, st =>
    pbind (Parser.expression f st) fun e st1 =>
    pbind (Parser.consume st1 TT.SEMICOLON "Expect \";\" after value.") fun _ st2 =>
    (some (.expression e), st2)

/-- `Parser.function(kind)`.  The source builds `Stmt.Function(name,
parameters, body)`; the unified AST stores the same three fields through a
function-literal expression node. -/
def Parser.functionRule : Nat → String → PState → Option Stmt × PState
  | 0, _, st => (none, st)
  | f + 1, kind, st =>
    pbind (Parser.consume st TT.IDENTIFIER ("Expect " ++ kind ++ " name.")) fun name st1 =>
    pbind (Parser.consume st1 TT.LEFT_PAREN ("Expect \"(\" after " ++ kind ++ " name.")) fun _ st2 =>
    pbind
      (if Parser.checkT st2 TT.RIGHT_PAREN then (some [], st2)
       else Parser.paramsLoop f [] st2)
      fun params st3 =>
    pbind (Parser.consume st3 TT.RIGHT_PAREN "Expect \")\" after parameters.") fun _ st4 =>
    pbind (Parser.consume st4 TT.LEFT_BRACE ("Expect \"\x7b\" before " ++ kind ++ " body.")) fun _ st5 =>
    pbind (Parser.blockRule f st5) fun body st6 =>
    (some (.sfunction (.efunction name params body)), st6)

/-- do-while over parameters inside `Parser.function`; the over-8 check
reports without throwing. -/
def Parser.paramsLoop : Nat → List Token → PState → Option (List Token) × PState
  | 0, _, st => (none, st)
  | f + 1, acc, st =>
    let st0 := if 8 ≤ acc.length then
        Parser.reportErr st "Cannot have more than 8 parameters."
      else st
    pbind (Parser.consume st0 TT.IDENTIFIER "Expect parameter name.") fun p st1 =>
    let (mComma, st2) := Parser.matchT st1 [TT.COMMA]
    if mComma then Parser.paramsLoop f (acc ++ [p]) st2
    else (some (acc ++ [p]), st2)

/-- `Parser.block`.  The source pushes `declaration()` results including
the `null` produced after a caught syntax error; nulls are dropped here —
they can only appear after `errs` is already non-empty, in which case the
interpreter never runs. -/
def Parser.blockRule : Nat → PState → Option (List Stmt) × PState
  | 0, st => (none, st)
  | f + 1, st => Parser.blockLoop f [] st

def Parser.blockLoop : Nat → List Stmt → PState → Option (List Stmt) × PState
  | 0, _, st => (none, st)
  | f + 1, acc, st =>
    if !Parser.checkT st TT.RIGHT_BRACE && !Parser.isAtEnd st then
      let (s?, st1) := Parser.declaration f st
      Parser.blockLoop f (acc ++ s?.toList) st1
    else
      pbind (Parser.consume st TT.RIGHT_BRACE "Expect \"\x7d\" after block.") fun _ st1 =>
      (some acc, st1)

/-- `Parser.expression`. -/
def Parser.expression : Nat → PState → Option Expr × PState
  | 0, st => (none, st)
  | f + 1, st => Parser.comma f st

/-- `Parser.comma`. -/
def Parser.comma : Nat → PState → Option Expr × PState
  | 0, st => (none, st)
  | f + 1, st =>
    pbind (Parser.assignment f st) fun e st1 => Parser.commaLoop f e st1

def Parser.commaLoop : Nat → Expr → PState → Option Expr × PState
  | 0, _, st => (none, st)
  | f + 1, e, st =>
    let (m, st1) := Parser.matchT st [TT.COMMA]
    if m then
      let op := Parser.prevTok st1
      pbind (Parser.assignment f st1) fun r st2 =>
      Parser.commaLoop f (.binary e op r) st2
    else (some e, st)

/-- `Parser.assignment`.  The invalid-target error is reported without
being thrown; the source then still returns the left expression.  The node
stores the consumed `=` token as its operator (the data model's optional
compound operator slot). -/
def Parser.assignment : Nat → PState → Option Expr × PState
  | 0, st => (none, st)
  | f + 1, st =>
    pbind (Parser.orRule f st) fun e st1 =>
    let (mEq, st2) := Parser.matchT st1 [TT.EQUAL]
    if mEq then
      let equals := Parser.prevTok st2
      pbind (Parser.assignment f st2) fun v st3 =>
      match e with
      | .variable _ name =>
        let (id, st4) := Parser.freshId st3
        (some (.assign id name equals v), st4)
      | _ => (some e, Parser.reportErr st3 "Invalid assignment target.")
    else (some e, st2)

/-- `Parser.or`. -/
def Parser.orRule : Nat → PState → Option Expr × PState
  | 0, st => (none, st)
  | f + 1, st =>
    pbind (Parser.andRule f st) fun e st1 => Parser.orLoop f e st1

def Parser.orLoop : Nat → Expr → PState → Option Expr × PState
  | 0, _, st => (none, st)
  | f + 1, e, st =>
    let (m, st1) := Parser.matchT st [TT.OR]
    if m then
      let op := Parser.prevTok st1
      pbind (Parser.andRule f st1) fun r st2 =>
      Parser.orLoop f (.logical e op r) st2
    else (some e, st)

/-- `Parser.and`. -/
def Parser.andRule : Nat → PState → Option Expr × PState
  | 0, st => (none, st)
  | f + 1, st =>
    pbind (Parser.equality f st) fun e st1 => Parser.andLoop f e st1

def Parser.andLoop : Nat → Expr → PState → Option Expr × PState
  | 0, _, st => (none, st)
  | f + 1, e, st =>
    let (m, st1) := Parser.matchT st [TT.AND]
    if m then
      let op := Parser.prevTok st1
      pbind (Parser.equality f st1) fun r st2 =>
      Parser.andLoop f (.logical e op r) st2
    else (some e, st)

/-- `Parser.equality`. -/
def Parser.equality : Nat → PState → Option Expr × PState
  | 0, st => (none, st)
  | f + 1, st =>
    pbind (Parser.comparison f st) fun e st1 => Parser.equalityLoop f e st1

def Parser.equalityLoop : Nat → Expr → PState → Option Expr × PState
  | 0, _, st => (none, st)
  | f + 1, e, st =>
    let (m, st1) := Parser.matchT st [TT.BANG_EQUAL, TT.EQUAL_EQUAL]
    if m then
      let op := Parser.prevTok st1
      pbind (Parser.comparison f st1) fun r st2 =>
      Parser.equalityLoop f (.binary e op r) st2
    else (some e, st)

/-- `Parser.comparison`. -/
def Parser.comparison : Nat → PState → Option Expr × PState
  | 0, st => (none, st)
  | f + 1, st =>
    pbind (Parser.addition f st) fun e st1 => Parser.comparisonLoop f e st1

def Parser.comparisonLoop : Nat → Expr → PState → Option Expr × PState
  | 0, _, st => (none, st)
  | f + 1, e, st =>
    let (m, st1) := Parser.matchT st [TT.GREATER, TT.GREATER_EQUAL, TT.LESS, TT.LESS_EQUAL]
    if m then
      let op := Parser.prevTok st1
      pbind (Parser.addition f st1) fun r st2 =>
      Parser.comparisonLoop f (.binary e op r) st2
    else (some e, st)

/-- `Parser.addition`. -/
def Parser.addition : Nat → PState → Option Expr × PState
  | 0, st => (none, st)
  | f + 1, st =>
    pbind (Parser.multiplication f st) fun e st1 => Parser.additionLoop f e st1

def Parser.additionLoop : Nat → Expr → PState → Option Expr × PState
  | 0, _, st => (none, st)
  | f + 1, e, st =>
    let (m, st1) := Parser.matchT st [TT.MINUS, TT.PLUS]
    if m then
      let op := Parser.prevTok st1
      pbind (Parser.multiplication f st1) fun r st2 =>
      Parser.additionLoop f (.binary e op r) st2
    else (some e, st)

/-- `Parser.multiplication`. -/
def Parser.multiplication : Nat → PState → Option Expr × PState
  | 0, st => (none, st)
  | f + 1, st =>
    pbind (Parser.modulo f st) fun e st1 => Parser.multiplicationLoop f e st1

def Parser.multiplicationLoop : Nat → Expr → PState → Option Expr × PState
  | 0, _, st => (none, st)
  | f + 1, e, st =>
    let (m, st1) := Parser.matchT st [TT.SLASH, TT.STAR]
    if m then
      let op := Parser.prevTok st1
      pbind (Parser.modulo f st1) fun r st2 =>
      Parser.multiplicationLoop f (.binary e op r) st2
    else (some e, st)

/-- `Parser.modulo`. -/
def Parser.modulo : Nat → PState → Option Expr × PState
  | 0, st => (none, st)
  | f + 1, st =>
    pbind (Parser.exponent f st) fun e st1 => Parser.moduloLoop f e st1

def Parser.moduloLoop : Nat → Expr → PState → Option Expr × PState
  | 0, _, st => (none, st)
  | f + 1, e, st =>
    let (m, st1) := Parser.matchT st [TT.PERCENT]
    if m then
      let op := Parser.prevTok st1
      pbind (Parser.exponent f st1) fun r st2 =>
      Parser.moduloLoop f (.binary e op r) st2
    else (some e, st)

/-- `Parser.exponent`. -/
def Parser.exponent : Nat → PState → Option Expr × PState
  | 0, st => (none, st)
  | f + 1, st =>
    pbind (Parser.unaryRule f st) fun e st1 => Parser.exponentLoop f e st1

def Parser.exponentLoop : Nat → Expr → PState → Option Expr × PState
  | 0, _, st => (none, st)
  | f + 1, e, st =>
    let (m, st1) := Parser.matchT st [TT.HAT]
    if m then
      let op := Parser.prevTok st1
      pbind (Parser.unaryRule f st1) fun r st2 =>
      Parser.exponentLoop f (.binary e op r) st2
    else (some e, st)

/-- `Parser.unary`. -/
def Parser.unaryRule : Nat → PState → Option Expr × PState
  | 0, st => (none, st)
  | f + 1, st =>
    let (m, st1) := Parser.matchT st [TT.BANG, TT.MINUS]
    if m then
      let op := Parser.prevTok st1
      pbind (Parser.unaryRule f st1) fun r st2 =>
      (some (.unary op r), st2)
    else Parser.callRule f st1

/-- `Parser.call`. -/
def Parser.callRule : Nat → PState → Option Expr × PState
  | 0, st => (none, st)
  | f + 1, st =>
    pbind (Parser.primary f st) fun e st1 => Parser.callLoop f e st1

def Parser.callLoop : Nat → Expr → PState → Option Expr × PState
  | 0, _, st => (none, st)
  | f + 1, e, st =>
    let (m, st1) := Parser.matchT st [TT.LEFT_PAREN]
    if m then
      pbind (Parser.finishCall f e st1) fun e2 st2 =>
      Parser.callLoop f e2 st2
    else (some e, st)

/-- `Parser.finishCall`; the over-8 check reports without throwing. -/
def Parser.finishCall : Nat → Expr → PState → Option Expr × PState
  | 0, _, st => (none, st)
  | f + 1, callee, st =>
    pbind
      (if Parser.checkT st TT.RIGHT_PAREN then (some [], st)
       else Parser.argsLoop f [] st)
      fun args st1 =>
    pbind (Parser.consume st1 TT.RIGHT_PAREN "Expect \")\" after arguments.") fun paren st2 =>
    (some (.call callee paren args), st2)

def Parser.argsLoop : Nat → List Expr → PState → Option (List Expr) × PState
  | 0, _, st => (none, st)
  | f + 1, acc, st =>
    let st0 := if 8 ≤ acc.length then
        Parser.reportErr st "Cannot have more than 8 arguments."
      else st
    pbind (Parser.expression f st0) fun a st1 =>
    let (mComma, st2) := Parser.matchT st1 [TT.COMMA]
    if mComma then Parser.argsLoop f (acc ++ [a]) st2
    else (some (acc ++ [a]), st2)

/-- `Parser.primary`.  The grouping message quotes the parenthesis with
apostrophes in the source. -/
def Parser.primary : Nat → PState → Option Expr × PState
  | 0, st => (none, st)
  | f + 1, st =>
    let (mFalse, st1) := Parser.matchT st [TT.FALSE]
    if mFalse then (some (.literal (.lbool false)), st1)
    else
      let (mTrue, st2) := Parser.matchT st1 [TT.TRUE]
      if mTrue then (some (.literal (.lbool true)), st2)
      else
        let (mNil, st3) := Parser.matchT st2 [TT.NIL]
        if mNil then (some (.literal .lnull), st3)
        else
          let (mLit, st4) := Parser.matchT st3 [TT.NUMBER, TT.STRING]
          if mLit then (some (.literal (Parser.prevTok st4).literal), st4)
          else
            let (mId, st5) := Parser.matchT st4 [TT.IDENTIFIER]
            if mId then
              let name := Parser.prevTok st5
              let (id, st6) := Parser.freshId st5
              (some (.variable id name), st6)
            else
              let (mParen, st6) := Parser.matchT st5 [TT.LEFT_PAREN]
              if mParen then
                pbind (Parser.expression f st6) fun e st7 =>
                pbind (Parser.consume st7 TT.RIGHT_PAREN "Expect \")\" after expression.") fun _ st8 =>
                (some (.grouping e), st8)
              else (none, Parser.reportErr st6 "Expect expression.")

/-- Main loop of `Parser.parse`. -/
def Parser.parseLoop : Nat → List (Option Stmt) → PState → List (Option Stmt) × PState
  | 0, acc, st => (acc, st)
  | f + 1, acc, st =>
    if Parser.isAtEnd st then (acc, st)
    else
      let (s?, st1) := Parser.declaration f st
      Parser.parseLoop f (acc ++ [s?]) st1

end

/-- `Parser.parse` on a fresh parser over the given tokens. -/
def parseProgram (fuel : Nat) (tokens : List Token) : List (Option Stmt) × PState :=
  Parser.parseLoop fuel [] ⟨tokens, 0, 0, []⟩

/-! ## Spec-side description of the for-loop desugaring

`desugarFor` follows the specification's words (§4.2): a for-loop is
"desugared into a block containing the optional initializer followed by a
while loop whose condition defaults to a true-literal when omitted and
whose body is wrapped to append the optional increment"; no dedicated
for node exists (and indeed `Stmt` has no for constructor). -/

/-- Spec-worded desugaring of a for-loop from its four clauses. -/
def desugarFor (initializer : Option Stmt) (condition : Option Expr)
    (increment : Option Expr) (body : Stmt) : Stmt :=
  let condExpr := match condition with
    | some c => c
    | none => Expr.literal (.lbool true)
  let loopBody := match increment with
    | some inc => Stmt.block [body, Stmt.expression inc]
    | none => body
  let w := Stmt.swhile condExpr loopBody
  match initializer with
  | some ini => Stmt.block [ini, w]
  | none => w

/-- The condition clause read the spec's way: `none` when the clause is
omitted (the token consumption is identical to `forCondClause`). -/
def Parser.forCondClauseOpt : Nat → PState → Option (Option Expr) × PState
  | 0, st => (none, st)
  | f + 1, st =>
    if Parser.checkT st TT.SEMICOLON then (some Option.none, st)
    else pbind (Parser.expression f st) fun c st4 => (some (some c), st4)

/-- The spec's reading of the for-statement rule: parse the clauses exactly
as `Parser.forStatement` does (token for token), but record an omitted
condition as `none` and assemble the result with `desugarFor`. -/
def Parser.forStatementSpec : Nat → PState → Option Stmt × PState
  | 0, st => (none, st)
  | f + 1, st =>
    pbind (Parser.consume st TT.LEFT_PAREN "Expect \"(\" after \"for\".") fun _ st1 =>
    pbind (Parser.forInitClause f st1) fun initOpt st3 =>
    pbind (Parser.forCondClauseOpt f st3) fun condOpt st4 =>
    pbind (Parser.consume st4 TT.SEMICOLON "Expect \";\" after loop condition.") fun _ st5 =>
    pbind (Parser.forIncrClause f st5) fun incrOpt st6 =>
    pbind (Parser.consume st6 TT.RIGHT_PAREN "Expect \")\" after for clauses.") fun _ st7 =>
    pbind (Parser.statement f st7) fun body st8 =>
    (some (desugarFor initOpt condOpt incrOpt body), st8)

/-! ## Resolver (`src/Resolver.ts`)

The locals map (`Interpreter.locals`, a `Map<Expr.Expr, number>` keyed by
node identity) is modelled as a partial map over node ids;
`Interpreter.resolve(expr, depth)` is `locsSet`.

The Resolver in the sources predates the class/property/this/function-literal
node kinds (its visitor declares no methods for them); on those nodes the
embedding is a no-op. -/

/-- The Interpreter's locals map: node id ↦ lexical distance. -/
abbrev LocalsMap : Type := Nat → Option Nat

/-- `Interpreter.resolve`: record `depth` against the node. -/
def locsSet (L : LocalsMap) (id depth : Nat) : LocalsMap :=
  fun k => if k = id then some depth else L k

/-- The empty locals map. -/
def locsEmpty : LocalsMap := fun _ => none

/-- `FunctionType` in Resolver.ts. -/
inductive FunctionType where
  | NONE
  | FUNCTION
deriving DecidableEq

/-- `LoopType` in Resolver.ts. -/
inductive LoopType where
  | NONE
  | LOOP
deriving DecidableEq

/-- One lexical scope: name ↦ defined flag (`false` = declared only).
TS-`Map.set` ordering is irrelevant to lookups, which are by key. -/
abbrev RScope : Type := List (String × Bool)

def rscopeGet (sc : RScope) (k : String) : Option Bool :=
  (sc.find? (fun p => p.1 = k)).map Prod.snd

def rscopeSet (sc : RScope) (k : String) (v : Bool) : RScope :=
  if sc.any (fun p => p.1 = k) then
    sc.map (fun p => if p.1 = k then (k, v) else p)
  else sc ++ [(k, v)]

/-- Resolver state: the scope stack (head = innermost scope; the TS `Stack`
stores the innermost at the top of its array), the enclosing-context kinds,
and the messages reported through `Lox.errorAtToken`. -/
structure RState where
  scopes : List RScope
  currentFunction : FunctionType
  currentLoop : LoopType
  errs : List String

def RState.initial : RState := ⟨[], .NONE, .NONE, []⟩

def Resolver.pushErr (r : RState) (m : String) : RState :=
  { r with errs := r.errs ++ [m] }

/-- `Resolver.beginScope`. -/
def Resolver.beginScope (r : RState) : RState :=
  { r with scopes := [] :: r.scopes }

/-- `Resolver.endScope`. -/
def Resolver.endScope (r : RState) : RState :=
  { r with scopes := r.scopes.tail }

/-- `Resolver.declare`: re-declaration in the same scope is a reported
error; the name is then marked declared-but-not-defined. -/
def Resolver.declare (name : Token) (r : RState) : RState :=
  match r.scopes with
  | [] => r
  | sc :: rest =>
    let r1 := if sc.any (fun p => p.1 = name.lexeme) then
        Resolver.pushErr r "Variable with this name is already declared in this scope."
      else r
    { r1 with scopes := rscopeSet sc name.lexeme false :: rest }

/-- `Resolver.define`. -/
def Resolver.define (name : Token) (r : RState) : RState :=
  match r.scopes with
  | [] => r
  | sc :: rest => { r with scopes := rscopeSet sc name.lexeme true :: rest }

/-- `Resolver.resolveLocal`: walk the scope stack innermost-outwards; the
first scope containing the name gives the recorded distance (0 =
innermost), exactly `scopes.size() - 1 - i` for the source's top-down index
walk.  No match leaves the node absent from the map (global reference). -/
def Resolver.resolveLocal (id : Nat) (name : Token) (r : RState) (L : LocalsMap) : LocalsMap :=
  match r.scopes.findIdx? (fun sc => sc.any (fun p => p.1 = name.lexeme)) with
  | some d => locsSet L id d
  | none => L

mutual

/-- Expression dispatch of `Resolver.resolve`. -/
def Resolver.resolveExpr : Expr → RState → LocalsMap → RState × LocalsMap
  | .variable id name, r, L =>
    -- visitVariableExpr: the own-initializer check, then resolveLocal
    let selfInit :=
      !r.scopes.isEmpty &&
        (match r.scopes.head? with
         | some sc => rscopeGet sc name.lexeme = some false
         | none => false)
    let r1 := if selfInit then
        Resolver.pushErr r "Cannot read local variable in its own initializer"
      else r
    (r1, Resolver.resolveLocal id name r1 L)
  | .assign id name _ value, r, L =>
    -- visitAssignExpr: resolve the value, then resolveLocal on the target
    let p := Resolver.resolveExpr value r L
    (p.1, Resolver.resolveLocal id name p.1 p.2)
  | .binary left _ right, r, L =>
    let p := Resolver.resolveExpr left r L
    Resolver.resolveExpr right p.1 p.2
  | .call callee _ args, r, L =>
    let p := Resolver.resolveExpr callee r L
    Resolver.resolveExprs args p.1 p.2
  | .grouping e, r, L => Resolver.resolveExpr e r L
  | .logical left _ right, r, L =>
    let p := Resolver.resolveExpr left r L
    Resolver.resolveExpr right p.1 p.2
  | .unary _ right, r, L => Resolver.resolveExpr right r L
  | .literal _, r, L => (r, L)
  -- The remaining node kinds postdate this Resolver (no visitor method in
  -- the source): no-ops here.
  | .efunction _ _ _, r, L => (r, L)
  | .get _ _, r, L => (r, L)
  | .eset _ _ _, r, L => (r, L)
  | .ethis _ _, r, L => (r, L)

def Resolver.resolveExprs : List Expr → RState → LocalsMap → RState × LocalsMap
  | [], r, L => (r, L)
  | e :: es, r, L =>
    let p := Resolver.resolveExpr e r L
    Resolver.resolveExprs es p.1 p.2

/-- Statement dispatch of `Resolver.resolve`. -/
def Resolver.resolveStmt : Stmt → RState → LocalsMap → RState × LocalsMap
  | .block stmts, r, L =>
    let p := Resolver.resolveStmts stmts (Resolver.beginScope r) L
    (Resolver.endScope p.1, p.2)
  | .expression e, r, L => Resolver.resolveExpr e r L
  | .svar name ini, r, L =>
    let r1 := Resolver.declare name r
    let p := match ini with
      | some e => Resolver.resolveExpr e r1 L
      | none => (r1, L)
    (Resolver.define name p.1, p.2)
  | .sfunction fnExpr, r, L =>
    -- visitFunctionStmt on the source's Stmt.Function(name, params, body)
    (match fnExpr with
     | .efunction name params body =>
       let r1 := Resolver.define name (Resolver.declare name r)
       Resolver.resolveFunction params body .FUNCTION r1 L
     | _ => (r, L))
  | .sif cond thenB elseB, r, L =>
    let p := Resolver.resolveExpr cond r L
    let q := Resolver.resolveStmt thenB p.1 p.2
    (match elseB with
     | some e => Resolver.resolveStmt e q.1 q.2
     | none => q)
  | .sprint e, r, L => Resolver.resolveExpr e r L
  | .sreturn _ value, r, L =>
    let r1 := if r.currentFunction = FunctionType.NONE then
        Resolver.pushErr r "Cannot return from top-level code."
      else r
    (match value with
     | some v => Resolver.resolveExpr v r1 L
     | none => (r1, L))
  | .swhile cond body, r, L =>
    let enclosingLoop := r.currentLoop
    let r1 := { r with currentLoop := LoopType.LOOP }
    let p := Resolver.resolveExpr cond r1 L
    let q := Resolver.resolveStmt body p.1 p.2
    ({ q.1 with currentLoop := enclosingLoop }, q.2)
  | .sbreak _, r, L =>
    (if r.currentLoop = LoopType.NONE then
      Resolver.pushErr r "Cannot use \"break\" outside of a loop."
     else r, L)
  | .scont _, r, L =>
    (if r.currentLoop = LoopType.NONE then
      Resolver.pushErr r "Cannot use \"continue\" outside of a loop."
     else r, L)
  -- Class statements postdate this Resolver: no-op.
  | .sclass _ _, r, L => (r, L)

def Resolver.resolveStmts : List Stmt → RState → LocalsMap → RState × LocalsMap
  | [], r, L => (r, L)
  | s :: ss, r, L =>
    let p := Resolver.resolveStmt s r L
    Resolver.resolveStmts ss p.1 p.2

/-- `Resolver.resolveFunction`. -/
def Resolver.resolveFunction :
    List Token → List Stmt → FunctionType → RState → LocalsMap → RState × LocalsMap
  | params, body, ftype, r, L =>
    let enclosingFunction := r.currentFunction
    let r1 := Resolver.beginScope { r with currentFunction := ftype }
    let r2 := params.foldl (fun acc p => Resolver.define p (Resolver.declare p acc)) r1
    let p := Resolver.resolveStmts body r2 L
    let r4 := Resolver.endScope p.1
    ({ r4 with currentFunction := enclosingFunction }, p.2)

end

/-- One fresh resolver pass over a program, threading the interpreter's
locals map exactly as `new Resolver(interpreter); resolver.resolve(...)`
would: the resulting locals map. -/
def resolveProgram (prog : List Stmt) (L : LocalsMap) : LocalsMap :=
  (Resolver.resolveStmts prog RState.initial L).2

/-! ## Runtime object model

Environments (`Environment.ts`, src/unnamed/part_004) and instances
(`LoxInstance.ts`) are mutable shared objects; the embedding stores them in
indexed heaps inside the interpreter state, and values reference them by
index.  `===` object identity is then index equality for instances. -/

/-- A function declaration as stored in a `LoxFunction`
(`Expr.Function`: name, params, body). -/
structure FnDecl where
  name : Token
  params : List Token
  body : List Stmt

/-- `LoxFunction`: declaration, captured closure environment (heap index),
constructor flag. -/
structure FnData where
  decl : FnDecl
  closure : Nat
  isInitializer : Bool

/-- `LoxFunction`'s three-argument constructor. -/
def mkLoxFunction (declaration : FnDecl) (closure : Nat) (isInit : Bool) : FnData :=
  ⟨declaration, closure, isInit⟩

/-- The two-argument form of the `LoxFunction` constructor: the
`isInitializer` parameter defaults to `false` in the source. -/
def mkLoxFunctionDefault (declaration : FnDecl) (closure : Nat) : FnData :=
  mkLoxFunction declaration closure false

/-- `LoxClass`: name and method table (immutable after creation). -/
structure ClassData where
  name : String
  methods : List (String × FnData)

/-- Runtime values (TS `any`).  `vnull`/`vundefined` mirror JS null/undefined;
`vnative` is a host-provided callable from the stdlib registry (only
`time`, of arity 0). -/
inductive Value where
  | vnull
  | vundefined
  | vbool (b : Bool)
  | vnum (q : Rat)
  | vstr (s : String)
  | vfn (f : FnData)
  | vklass (k : ClassData)
  | vnative (id : Nat)
  | vinst (ref : Nat)

/-- An environment: optional enclosing environment (heap index) and the
binding table. -/
structure EnvData where
  enclosing : Option Nat
  values : List (String × Value)

/-- A `LoxInstance`: its class and its own field table. -/
structure InstData where
  klass : ClassData
  fields : List (String × Value)

/-- Interpreter state: the environment heap (index 0 = `globals`), the
instance heap, the current-environment pointer, the resolver-filled locals
map, the lines printed so far, and the host clock consumed by the `time`
native. -/
structure IState where
  envs : List EnvData
  instances : List InstData
  environment : Nat
  locals : LocalsMap
  output : List String
  clockNow : Rat

/-- TS `Map.get`. -/
def mapGet? {α : Type} (m : List (String × α)) (k : String) : Option α :=
  (m.find? (fun p => p.1 = k)).map Prod.snd

/-- TS `Map.set`: overwrite in place, else append. -/
def mapSet {α : Type} (m : List (String × α)) (k : String) (v : α) : List (String × α) :=
  if m.any (fun p => p.1 = k) then
    m.map (fun p => if p.1 = k then (k, v) else p)
  else m ++ [(k, v)]

def defaultEnv : EnvData := ⟨none, []⟩

def IState.envAt (st : IState) (ref : Nat) : EnvData :=
  st.envs.getD ref defaultEnv

def IState.setEnv (st : IState) (ref : Nat) (e : EnvData) : IState :=
  { st with envs := st.envs.set ref e }

/-- `new Environment(enclosing)`: allocate, return its index. -/
def envAlloc (enclosing : Option Nat) (st : IState) : Nat × IState :=
  (st.envs.length, { st with envs := st.envs ++ [⟨enclosing, []⟩] })

/-- `Environment.define`. -/
def envDefine (st : IState) (ref : Nat) (name : String) (v : Value) : IState :=
  st.setEnv ref { st.envAt ref with values := mapSet (st.envAt ref).values name v }

/-- `Environment.ancestor`: follow `enclosing` `distance` times.  A missing
parent (never reached for resolver-produced distances) stays in place. -/
def envAncestor (st : IState) (ref : Nat) : Nat → Nat
  | 0 => ref
  | d + 1 =>
    match (st.envAt ref).enclosing with
    | some p => envAncestor st p d
    | none => ref

/-- `Environment.getAt`: `Map.get` on the ancestor — absent names give JS
`undefined`. -/
def envGetAt (st : IState) (ref dist : Nat) (name : String) : Value :=
  (mapGet? (st.envAt (envAncestor st ref dist)).values name).getD .vundefined

/-- `Environment.assignAt`. -/
def envAssignAt (st : IState) (ref dist : Nat) (name : String) (v : Value) : IState :=
  let a := envAncestor st ref dist
  st.setEnv a { st.envAt a with values := mapSet (st.envAt a).values name v }

/-- Source message `Undefined variable 'name'.` (the name is quoted with
apostrophes in the source text). -/
def undefinedVarMsg (n : String) : String :=
  "Undefined variable " ++ n ++ "."

/-- Chain walk of `Environment.get`; the fuel exceeds the heap size, and
every reachable chain is shorter than the heap. -/
def envGetAux : Nat → IState → Nat → Token → Option Value
  | 0, _, _, _ => none
  | f + 1, st, ref, tok =>
    match mapGet? (st.envAt ref).values tok.lexeme with
    | some v => some v
    | none =>
      match (st.envAt ref).enclosing with
      | some p => envGetAux f st p tok
      | none => none

/-- `Environment.get` starting from environment `ref`; `none` models the
thrown undefined-variable `RuntimeError`. -/
def envGet (st : IState) (ref : Nat) (tok : Token) : Option Value :=
  envGetAux (st.envs.length + 1) st ref tok

/-- Chain walk of `Environment.assign`. -/
def envAssignAux : Nat → IState → Nat → Token → Value → Option IState
  | 0, _, _, _, _ => none
  | f + 1, st, ref, tok, v =>
    if (st.envAt ref).values.any (fun p => p.1 = tok.lexeme) then
      some (st.setEnv ref { st.envAt ref with values := mapSet (st.envAt ref).values tok.lexeme v })
    else
      match (st.envAt ref).enclosing with
      | some p => envAssignAux f st p tok v
      | none => none

/-- `Environment.assign`; `none` models the thrown undefined-variable
`RuntimeError`. -/
def envAssign (st : IState) (ref : Nat) (tok : Token) (v : Value) : Option IState :=
  envAssignAux (st.envs.length + 1) st ref tok v

/-- Evaluation outcome: normal value, thrown `RuntimeError` (token and
message), the `Return`/`Break`/`Continue` control signals, or fuel
exhaustion (`cspin`, an artifact of the embedding only). -/
inductive Ctl where
  | cok (v : Value)
  | cerr (tok : Token) (msg : String)
  | cret (v : Value)
  | cbrk
  | ccont
  | cspin

/-- `Interpreter.isTruthy`: everything but null, undefined, false and 0. -/
def isTruthy : Value → Bool
  | .vnull => false
  | .vundefined => false
  | .vbool b => b
  | .vnum q => decide (q ≠ 0)
  | _ => true

/-- `===` on the values the language compares: primitives by value,
instances by identity.  Function/class/native objects are distinct heap
objects in the source whenever compared here; the embedding conservatively
compares them unequal. -/
def strictEq : Value → Value → Bool
  | .vnull, .vnull => true
  | .vundefined, .vundefined => true
  | .vbool a, .vbool b => a = b
  | .vnum a, .vnum b => decide (a = b)
  | .vstr a, .vstr b => a = b
  | .vinst a, .vinst b => a = b
  | _, _ => false

/-- Display text for numbers (JS `Number.prototype.toString` restricted to
the integral values the claims print; non-integral values are not
exercised). -/
def numToString (q : Rat) : String :=
  if q.den = 1 then toString q.num else toString q.num ++ "/" ++ toString q.den

/-- `Interpreter.stringify` (null prints as `nil`, otherwise `toString()`).
Instances/classes/functions use their `toString` forms. -/
def stringify (st : IState) : Value → String
  | .vnull => "nil"
  | .vundefined => "undefined"
  | .vbool b => if b then "true" else "false"
  | .vnum q => numToString q
  | .vstr s => s
  | .vfn f => "<fn " ++ f.decl.name.lexeme ++ ">"
  | .vklass k => "<class " ++ k.name ++ ">"
  | .vnative _ => "<native fn>"
  | .vinst ref => "<instance of " ++ (st.instances.getD ref ⟨⟨"", []⟩, []⟩).klass.name ++ ">"

/-- JS `+` on interpreter values, as used by the `PLUS` binary case after
the string/number checks, and by `PLUS_EQUAL`.  Cases outside
number+number / string-involving are unreachable through `visitBinaryExpr`
(which throws first) and are not exercised by the claims. -/
def jsAdd (st : IState) : Value → Value → Value
  | .vnum a, .vnum b => .vnum (a + b)
  | .vstr a, b => .vstr (a ++ stringify st b)
  | a, .vstr b => .vstr (stringify st a ++ b)
  | _, _ => .vundefined

/-- Raw JS arithmetic used by the compound-assignment forms on
already-read values (no operand type check in the source); non-numeric
coercions are not exercised by the claims and map to `undefined`. -/
def jsArith (op : TT) (a b : Value) : Value :=
  match op, a, b with
  | TT.MINUS_EQUAL, .vnum x, .vnum y => .vnum (x - y)
  | TT.STAR_EQUAL, .vnum x, .vnum y => .vnum (x * y)
  | TT.SLASH_EQUAL, .vnum x, .vnum y => if y = 0 then .vundefined else .vnum (x / y)
  | _, _, _ => .vundefined

/-- `LoxCallable` capability test (`callee instanceof LoxCallable`):
functions, classes and natives. -/
def isCallable : Value → Bool
  | .vfn _ => true
  | .vklass _ => true
  | .vnative _ => true
  | _ => false

/-- `LoxFunction.arity`. -/
def fnArity (f : FnData) : Nat := f.decl.params.length

/-- `LoxClass.arity`: the arity of `init` when present, else 0. -/
def classArity (k : ClassData) : Nat :=
  match mapGet? k.methods "init" with
  | some initializer => fnArity initializer
  | none => 0

/-- `arity()` through the Callable capability. -/
def arityOf : Value → Nat
  | .vfn f => fnArity f
  | .vklass k => classArity k
  | .vnative _ => 0
  | _ => 0

/-- The arity-mismatch message of `visitCallExpr`:
`Expected N arguments, but got M.` -/
def arityMsg (expected got : Nat) : String :=
  "Expected " ++ toString expected ++ " arguments, but got " ++ toString got ++ "."

/-- `LoxFunction.bind`: wrap the closure in a fresh environment defining
`this`, and rebuild the function with the TWO-argument constructor — the
`isInitializer` flag is therefore the default `false`. -/
def bindFn (fn : FnData) (instRef : Nat) (st : IState) : FnData × IState :=
  let p := envAlloc (some fn.closure) st
  let st2 := envDefine p.2 p.1 "this" (.vinst instRef)
  (mkLoxFunctionDefault fn.decl p.1, st2)

/-- `LoxClass.findMethod`: look the name up in the method table and bind it
to the instance. -/
def findMethod (k : ClassData) (instRef : Nat) (name : String) (st : IState) :
    Option FnData × IState :=
  match mapGet? k.methods name with
  | some m =>
    let p := bindFn m instRef st
    (some p.1, p.2)
  | none => (none, st)

def defaultInst : InstData := ⟨⟨"", []⟩, []⟩

/-- `new LoxInstance(klass)` (fields start empty); returns its index. -/
def instAlloc (k : ClassData) (st : IState) : IState :=
  { st with instances := st.instances ++ [⟨k, []⟩] }

/-- `LoxInstance.get`: own fields first, then the class's methods (bound),
else the undefined-property `RuntimeError`. -/
def instanceGet (st : IState) (ref : Nat) (name : Token) : Ctl × IState :=
  let inst := st.instances.getD ref defaultInst
  match mapGet? inst.fields name.lexeme with
  | some v => (.cok v, st)
  | none =>
    match findMethod inst.klass ref name.lexeme st with
    | (some m, st1) => (.cok (.vfn m), st1)
    | (none, st1) =>
      (.cerr name ("Undefined property \"" ++ name.lexeme ++ "\"."), st1)

/-- `LoxInstance.set`. -/
def instanceSet (st : IState) (ref : Nat) (name : Token) (v : Value) : IState :=
  let inst := st.instances.getD ref defaultInst
  { st with instances := st.instances.set ref { inst with fields := mapSet inst.fields name.lexeme v } }

/-- `Expr.Literal` payload to runtime value. -/
def litToValue : LitVal → Value
  | .lnull => .vnull
  | .lbool b => .vbool b
  | .lnum q => .vnum q
  | .lstr s => .vstr s

/-- Both-numbers check of `Interpreter.checkNumberOperands`. -/
def numPair : Value → Value → Option (Rat × Rat)
  | .vnum a, .vnum b => some (a, b)
  | _, _ => none

/-- JS `%` on numbers (`PERCENT`).  The zero-divisor NaN and the
trunc-vs-floor difference on negative operands are not exercised by any
claim; nonnegative operands match JS exactly. -/
def jsMod (a b : Rat) : Rat :=
  if b = 0 then 0 else a - b * ((a / b).floor : Rat)

/-- JS `**` (`HAT`) for the natural exponents the language tests use. -/
def ratPow (a b : Rat) : Rat :=
  if b.den = 1 ∧ 0 ≤ b.num then a ^ b.num.toNat else 0

/-- `Interpreter.lookupVariable`: resolver distance if recorded, else the
global environment (which may throw the undefined-variable error). -/
def lookupVariable (st : IState) (name : Token) (id : Nat) : Ctl :=
  match st.locals id with
  | none =>
    match envGet st 0 name with
    | some v => .cok v
    | none => .cerr name (undefinedVarMsg name.lexeme)
  | some d => .cok (envGetAt st st.environment d name.lexeme)

/-- `Interpreter.getVariable` (compound assignment read path): the
resolved-distance read, with the explicit is-undefined guard. -/
def getVariable (st : IState) (name : Token) (distance : Option Nat) : Ctl :=
  let v? := match distance with
    | none => envGet st 0 name
    | some d => some (envGetAt st st.environment d name.lexeme)
  match v? with
  | none => .cerr name (undefinedVarMsg name.lexeme)
  | some .vundefined => .cerr name "Variable is not declared."
  | some v => .cok v

/-- `Interpreter.setVariable`: write through the resolved distance, or
assign into globals (which may throw). -/
def setVariable (st : IState) (name : Token) (distance : Option Nat) (v : Value) :
    Ctl × IState :=
  match distance with
  | none =>
    match envAssign st 0 name v with
    | some st1 => (.cok v, st1)
    | none => (.cerr name (undefinedVarMsg name.lexeme), st)
  | some d => (.cok v, envAssignAt st st.environment d name.lexeme v)

/-- Positional parameter binding of `LoxFunction.call`; missing arguments
read as JS `undefined`. -/
def bindParams : List Token → List Value → Nat → IState → IState
  | [], _, _, st => st
  | p :: ps, [], envRef, st =>
    bindParams ps [] envRef (envDefine st envRef p.lexeme .vundefined)
  | p :: ps, a :: args, envRef, st =>
    bindParams ps args envRef (envDefine st envRef p.lexeme a)

/-- `visitClassStmt`'s method-table construction: each method becomes a
`LoxFunction` closing over the current environment, flagged as initializer
exactly when its name is `init`. -/
def buildMethods (methods : List Stmt) (closure : Nat) : List (String × FnData) :=
  methods.foldl
    (fun acc m =>
      match m with
      | .sfunction (.efunction mname params body) =>
        mapSet acc mname.lexeme
          (mkLoxFunction ⟨mname, params, body⟩ closure (decide (mname.lexeme = "init")))
      | _ => acc)
    []

mutual

/-- `Interpreter.evaluate` / the `visit*Expr` methods, fuel-indexed. -/
def evaluate : Nat → IState → Expr → Ctl × IState
  | 0, st, _ => (.cspin, st)
  | f + 1, st, e =>
    match e with
    | .literal v => (.cok (litToValue v), st)
    | .grouping inner => evaluate f st inner
    | .efunction name params body =>
      -- visitFunctionExpr: new LoxFunction(expr, this.environment)
      (.cok (.vfn (mkLoxFunctionDefault ⟨name, params, body⟩ st.environment)), st)
    | .unary op right =>
      (match evaluate f st right with
       | (.cok r, st1) =>
         (match op.ttype with
          | TT.MINUS =>
            (match r with
             | .vnum q => (.cok (.vnum (-q)), st1)
             | _ => (.cerr op "Operand must be a number", st1))
          | TT.BANG => (.cok (.vbool (!isTruthy r)), st1)
          | _ => (.cok .vnull, st1))
       | (o, st1) => (o, st1))
    | .binary left op right =>
      (match evaluate f st left with
       | (.cok l, st1) =>
         (match evaluate f st1 right with
          | (.cok r, st2) =>
            (match op.ttype with
             | TT.GREATER =>
               (match numPair l r with
                | some (a, b) => (.cok (.vbool (decide (b < a))), st2)
                | none => (.cerr op "Operands must be numbers", st2))
             | TT.GREATER_EQUAL =>
               (match numPair l r with
                | some (a, b) => (.cok (.vbool (decide (b ≤ a))), st2)
                | none => (.cerr op "Operands must be numbers", st2))
             | TT.LESS =>
               (match numPair l r with
                | some (a, b) => (.cok (.vbool (decide (a < b))), st2)
                | none => (.cerr op "Operands must be numbers", st2))
             | TT.LESS_EQUAL =>
               (match numPair l r with
                | some (a, b) => (.cok (.vbool (decide (a ≤ b))), st2)
                | none => (.cerr op "Operands must be numbers", st2))
             | TT.EQUAL_EQUAL => (.cok (.vbool (strictEq l r)), st2)
             | TT.BANG_EQUAL => (.cok (.vbool (!strictEq l r)), st2)
             | TT.SLASH =>
               (match numPair l r with
                | some (a, b) =>
                  if b = 0 then (.cerr op "Cannot divide by zero.", st2)
                  else (.cok (.vnum (a / b)), st2)
                | none => (.cerr op "Operands must be numbers", st2))
             | TT.STAR =>
               (match numPair l r with
                | some (a, b) => (.cok (.vnum (a * b)), st2)
                | none => (.cerr op "Operands must be numbers", st2))
             | TT.MINUS =>
               (match numPair l r with
                | some (a, b) => (.cok (.vnum (a - b)), st2)
                | none => (.cerr op "Operands must be numbers", st2))
             | TT.PERCENT =>
               (match numPair l r with
                | some (a, b) => (.cok (.vnum (jsMod a b)), st2)
                | none => (.cerr op "Operands must be numbers", st2))
             | TT.HAT =>
               (match numPair l r with
                | some (a, b) => (.cok (.vnum (ratPow a b)), st2)
                | none => (.cerr op "Operands must be numbers", st2))
             | TT.PLUS =>
               (match l, r with
                | .vstr _, _ => (.cok (jsAdd st2 l r), st2)
                | _, .vstr _ => (.cok (jsAdd st2 l r), st2)
                | .vnum a, .vnum b => (.cok (.vnum (a + b)), st2)
                | _, _ => (.cerr op "Operands must be two numbers or two strings", st2))
             | TT.COMMA => (.cok r, st2)
             | _ => (.cok .vundefined, st2))
          | (o, st2) => (o, st2))
       | (o, st1) => (o, st1))
    | .logical left op right =>
      (match evaluate f st left with
       | (.cok l, st1) =>
         -- source switch FALLS THROUGH: the OR case, when not returning,
         -- continues into the AND case's guard, then into the default.
         (match op.ttype with
          | TT.OR =>
            if isTruthy l then (.cok l, st1)
            else if !isTruthy l then (.cok l, st1)
            else evaluate f st1 right
          | TT.AND =>
            if !isTruthy l then (.cok l, st1)
            else evaluate f st1 right
          | _ => evaluate f st1 right)
       | (o, st1) => (o, st1))
    | .variable id name => (lookupVariable st name id, st)
    | .ethis id keyword => (lookupVariable st keyword id, st)
    | .assign id name op value =>
      (match evaluate f st value with
       | (.cok v, st1) =>
         let distance := st1.locals id
         (match op.ttype with
          | TT.EQUAL => setVariable st1 name distance v
          | TT.PLUS_EQUAL =>
            (match getVariable st1 name distance with
             | .cok cur => setVariable st1 name distance (jsAdd st1 cur v)
             | o => (o, st1))
          | TT.MINUS_EQUAL =>
            (match getVariable st1 name distance with
             | .cok cur => setVariable st1 name distance (jsArith TT.MINUS_EQUAL cur v)
             | o => (o, st1))
          | TT.STAR_EQUAL =>
            (match getVariable st1 name distance with
             | .cok cur => setVariable st1 name distance (jsArith TT.STAR_EQUAL cur v)
             | o => (o, st1))
          | TT.SLASH_EQUAL =>
            (match getVariable st1 name distance with
             | .cok cur => setVariable st1 name distance (jsArith TT.SLASH_EQUAL cur v)
             | o => (o, st1))
          | _ => (.cok v, st1))
       | (o, st1) => (o, st1))
    | .call callee paren argEs =>
      (match evaluate f st callee with
       | (.cok c, st1) =>
         if !isCallable c then
           (.cerr paren "Can only call functions and classes.", st1)
         else
           (match evalArgs f st1 argEs with
            | (.error o, st2) => (o, st2)
            | (.ok args, st2) =>
              if decide (args.length ≠ arityOf c) then
                (.cerr paren (arityMsg (arityOf c) args.length), st2)
              else callValue f c args st2)
       | (o, st1) => (o, st1))
    | .get obj name =>
      (match evaluate f st obj with
       | (.cok (.vinst ref), st1) => instanceGet st1 ref name
       | (.cok _, st1) => (.cerr name "Only instances have properties", st1)
       | (o, st1) => (o, st1))
    | .eset obj name value =>
      (match evaluate f st obj with
       | (.cok (.vinst ref), st1) =>
         (match evaluate f st1 value with
          | (.cok v, st2) => (.cok v, instanceSet st2 ref name v)
          | (o, st2) => (o, st2))
       | (.cok _, st1) => (.cerr name "Only instances have fields.", st1)
       | (o, st1) => (o, st1))

/-- Argument evaluation loop of `visitCallExpr`. -/
def evalArgs : Nat → IState → List Expr → Except Ctl (List Value) × IState
  | 0, st, _ => (.error .cspin, st)
  | _ + 1, st, [] => (.ok [], st)
  | f + 1, st, e :: es =>
    match evaluate f st e with
    | (.cok v, st1) =>
      (match evalArgs f st1 es with
       | (.ok vs, st2) => (.ok (v :: vs), st2)
       | (.error o, st2) => (.error o, st2))
    | (o, st1) => (.error o, st1)

/-- `fn.call(this, args)` dispatch through the Callable capability.  The
native `time` returns the host clock (`Date.now()`). -/
def callValue : Nat → Value → List Value → IState → Ctl × IState
  | 0, _, _, st => (.cspin, st)
  | f + 1, c, args, st =>
    match c with
    | .vfn fn => funCall f fn args st
    | .vklass k => classCall f k args st
    | .vnative _ => (.cok (.vnum st.clockNow), st)
    | _ => (.cok .vundefined, st)

/-- `LoxFunction.call`: fresh environment over the closure, positional
parameter binding, body as a block; a propagating `Return` yields its
value, then a constructor returns its bound `this`, else null. -/
def funCall : Nat → FnData → List Value → IState → Ctl × IState
  | 0, _, _, st => (.cspin, st)
  | f + 1, fn, args, st =>
    let p := envAlloc (some fn.closure) st
    let st2 := bindParams fn.decl.params args p.1 p.2
    match execBlock f fn.decl.body p.1 st2 with
    | (.cret v, st3) => (.cok v, st3)
    | (.cok _, st3) =>
      if fn.isInitializer then (.cok (envGetAt st3 fn.closure 0 "this"), st3)
      else (.cok .vnull, st3)
    | (o, st3) => (o, st3)

/-- `LoxClass.call`: create the instance, invoke a bound `init` when
present (discarding its returned value), and return the instance. -/
def classCall : Nat → ClassData → List Value → IState → Ctl × IState
  | 0, _, _, st => (.cspin, st)
  | f + 1, k, args, st =>
    let ref := st.instances.length
    let st1 := instAlloc k st
    match mapGet? k.methods "init" with
    | none => (.cok (.vinst ref), st1)
    | some initializer =>
      let p := bindFn initializer ref st1
      match funCall f p.1 args p.2 with
      | (.cok _, st3) => (.cok (.vinst ref), st3)
      | (o, st3) => (o, st3)

/-- `Interpreter.execute` / the `visit*Stmt` methods.  `.cok .vnull` is
normal completion. -/
def execute : Nat → IState → Stmt → Ctl × IState
  | 0, st, _ => (.cspin, st)
  | f + 1, st, s =>
    match s with
    | .block stmts =>
      let p := envAlloc (some st.environment) st
      execBlock f stmts p.1 p.2
    | .expression e =>
      (match evaluate f st e with
       | (.cok _, st1) => (.cok .vnull, st1)
       | (o, st1) => (o, st1))
    | .sclass name methods =>
      let st1 := envDefine st st.environment name.lexeme .vnull
      let klass : ClassData := ⟨name.lexeme, buildMethods methods st1.environment⟩
      (match envAssign st1 st1.environment name (.vklass klass) with
       | some st2 => (.cok .vnull, st2)
       | none => (.cerr name (undefinedVarMsg name.lexeme), st1))
    | .sfunction fnExpr =>
      (match fnExpr with
       | .efunction n params body =>
         (.cok .vnull,
          envDefine st st.environment n.lexeme
            (.vfn (mkLoxFunctionDefault ⟨n, params, body⟩ st.environment)))
       | _ => (.cok .vnull, st))
    | .sif cond thenB elseB =>
      (match evaluate f st cond with
       | (.cok c, st1) =>
         if isTruthy c then execute f st1 thenB
         else
           (match elseB with
            | some e => execute f st1 e
            | none => (.cok .vnull, st1))
       | (o, st1) => (o, st1))
    | .swhile cond body => whileLoop f cond body st
    | .sprint e =>
      (match evaluate f st e with
       | (.cok v, st1) => (.cok .vnull, { st1 with output := st1.output ++ [stringify st1 v] })
       | (o, st1) => (o, st1))
    | .sreturn _ value =>
      (match value with
       | some e =>
         (match evaluate f st e with
          | (.cok v, st1) => (.cret v, st1)
          | (o, st1) => (o, st1))
       | none => (.cret .vnull, st))
    | .sbreak _ => (.cbrk, st)
    | .scont _ => (.ccont, st)
    | .svar name ini =>
      (match ini with
       | some e =>
         (match evaluate f st e with
          | (.cok v, st1) => (.cok .vnull, envDefine st1 st1.environment name.lexeme v)
          | (o, st1) => (o, st1))
       | none => (.cok .vnull, envDefine st st.environment name.lexeme .vnull))

/-- `statements.forEach(execute)` with signal propagation. -/
def execStmts : Nat → List Stmt → IState → Ctl × IState
  | 0, _, st => (.cspin, st)
  | _ + 1, [], st => (.cok .vnull, st)
  | f + 1, s :: ss, st =>
    match execute f st s with
    | (.cok _, st1) => execStmts f ss st1
    | (o, st1) => (o, st1)

/-- `Interpreter.executeBlock`: swap in the block environment, run the
statements, and restore the previous environment in a `finally` — on every
exit path, normal or unwinding. -/
def execBlock : Nat → List Stmt → Nat → IState → Ctl × IState
  | 0, _, _, st => (.cspin, st)
  | f + 1, stmts, envRef, st =>
    let previous := st.environment
    let p := execStmts f stmts { st with environment := envRef }
    (p.1, { p.2 with environment := previous })

/-- `visitWhileStmt`: re-check the condition each iteration; a `Break`
stops the loop, a `Continue` skips to the next check, anything else is
rethrown. -/
def whileLoop : Nat → Expr → Stmt → IState → Ctl × IState
  | 0, _, _, st => (.cspin, st)
  | f + 1, cond, body, st =>
    match evaluate f st cond with
    | (.cok c, st1) =>
      if isTruthy c then
        match execute f st1 body with
        | (.cok _, st2) => whileLoop f cond body st2
        | (.cbrk, st2) => (.cok .vnull, st2)
        | (.ccont, st2) => whileLoop f cond body st2
        | (o, st2) => (o, st2)
      else (.cok .vnull, st1)
    | (o, st1) => (o, st1)

end

/-- The interpreter's initial state: `globals` at index 0 holding the
stdlib registry (`time`), empty heaps, empty locals map. -/
def initialState : IState :=
  ⟨[⟨none, [("time", .vnative 0)]⟩], [], 0, locsEmpty, [], 0⟩

/-- `Interpreter.interpret`: run the statements top to bottom; a
`RuntimeError` aborts the remaining statements (and is reported), other
signals reaching the top are the `Generic error` path. -/
def interpret (fuel : Nat) (statements : List Stmt) (st : IState) : Ctl × IState :=
  execStmts fuel statements st


/-! ## Remaining definitions used by the theorems below -/

/-- Modelled from the spec: function invocation with the constructor-return
path removed (normal completion always yields null).  Stated for comparison
with `funCall`: a method bound through `LoxFunction.bind` never takes the
`isInitializer` branch. -/
def funCallNoCtor : Nat → FnData → List Value → IState → Ctl × IState
  | 0, _, _, st => (.cspin, st)
  | f + 1, fn, args, st =>
    let p := envAlloc (some fn.closure) st
    let st2 := bindParams fn.decl.params args p.1 p.2
    match execBlock f fn.decl.body p.1 st2 with
    | (.cret v, st3) => (.cok v, st3)
    | (.cok _, st3) => (.cok .vnull, st3)
    | (o, st3) => (o, st3)

/-- Override of locals maps: `w` where defined, `base` elsewhere.  The
resolver only ever writes the locals map, so a resolver run on `base`
equals its run from the empty map overriding `base`. -/
def locsOver (base w : LocalsMap) : LocalsMap :=
  fun k => (w k).orElse (fun _ => base k)

/-- Locals-parametricity predicate: the run on `L` equals the run from the
empty map with `L` underneath, and the resolver-state component is
independent of the incoming map. -/
def ParR (g : RState → LocalsMap → RState × LocalsMap) : Prop :=
  ∀ r L, g r L = ((g r locsEmpty).1, locsOver L ((g r locsEmpty).2))

/-! Concrete fixtures for the witness theorems. -/

def orTok : Token := ⟨TT.OR, "or", .lnull, 1⟩
def identTokX : Token := ⟨TT.IDENTIFIER, "x", .lnull, 1⟩
def slashTok : Token := ⟨TT.SLASH, "/", .lnull, 1⟩
def parenTok : Token := ⟨TT.RIGHT_PAREN, ")", .lnull, 1⟩
def fnNameTok : Token := ⟨TT.IDENTIFIER, "f", .lnull, 1⟩

/-- The value of evaluating the function literal `fun f() {}` in the
initial state. -/
def demoFnVal : Value := .vfn (mkLoxFunctionDefault ⟨fnNameTok, [], []⟩ 0)

def demoInitNameTok : Token := ⟨TT.IDENTIFIER, "init", .lnull, 1⟩
def demoInitDecl : FnDecl := ⟨demoInitNameTok, [], []⟩

/-- A class with no methods at all. -/
def demoClassNoInit : ClassData := ⟨"Bare", []⟩

/-- A class whose `init` is stored with `isInitializer = true`, as
`visitClassStmt` builds it. -/
def demoClassInit : ClassData := ⟨"Thing", [("init", mkLoxFunction demoInitDecl 0 true)]⟩

/-- The function obtained by looking `init` up through the instance
property path (`LoxClass.findMethod`, which binds it). -/
def demoBound : FnData :=
  ((findMethod demoClassInit 0 "init" initialState).1).getD ⟨demoInitDecl, 0, true⟩

/-! ## Resolver idempotence machinery -/

theorem locsOver_empty_w (L : LocalsMap) : locsOver L locsEmpty = L := by
  funext k
  simp [locsOver, locsEmpty, Option.orElse]

theorem locsOver_assoc (L W1 W2 : LocalsMap) :
    locsOver (locsOver L W1) W2 = locsOver L (locsOver W1 W2) := by
  funext k
  cases h2 : W2 k <;> cases h1 : W1 k <;> simp [locsOver, h1, h2, Option.orElse]

theorem locsOver_absorb (L W : LocalsMap) :
    locsOver (locsOver L W) W = locsOver L W := by
  funext k
  cases h : W k <;> simp [locsOver, h, Option.orElse]

theorem locsSet_as_over (L : LocalsMap) (id d : Nat) :
    locsSet L id d = locsOver L (locsSet locsEmpty id d) := by
  funext k
  by_cases h : k = id <;> simp [locsSet, locsOver, locsEmpty, h, Option.orElse]

theorem resolveLocal_as_over (id : Nat) (name : Token) (r : RState) (L : LocalsMap) :
    Resolver.resolveLocal id name r L =
      locsOver L (Resolver.resolveLocal id name r locsEmpty) := by
  unfold Resolver.resolveLocal
  cases h : r.scopes.findIdx? (fun sc => sc.any (fun p => p.1 = name.lexeme)) with
  | none => exact (locsOver_empty_w L).symm
  | some d => exact locsSet_as_over L id d

theorem ParR.pure (t : RState → RState) : ParR (fun r L => (t r, L)) := by
  intro r L
  dsimp only
  rw [locsOver_empty_w]

theorem ParR.comp {g h : RState → LocalsMap → RState × LocalsMap}
    (hg : ParR g) (hh : ParR h) :
    ParR (fun r L => h (g r L).1 (g r L).2) := by
  intro r L
  have h1 := hg r L
  have h2 := hh ((g r locsEmpty).1) (locsOver L ((g r locsEmpty).2))
  have h3 := hh ((g r locsEmpty).1) ((g r locsEmpty).2)
  dsimp only
  rw [h1]
  dsimp only
  rw [h2, h3]
  dsimp only
  rw [locsOver_assoc]

theorem ParR.pre {g : RState → LocalsMap → RState × LocalsMap}
    (pre : RState → RState) (hg : ParR g) :
    ParR (fun r L => g (pre r) L) := by
  intro r L
  dsimp only
  rw [hg (pre r) L]

theorem ParR.wrap {g : RState → LocalsMap → RState × LocalsMap}
    (pre : RState → RState) (post : RState → RState → RState)
    (hg : ParR g) :
    ParR (fun r L => (post r (g (pre r) L).1, (g (pre r) L).2)) := by
  intro r L
  dsimp only
  rw [hg (pre r) L]

theorem ParR.write (t : RState → RState) (id : Nat) (name : Token) :
    ParR (fun r L => (t r, Resolver.resolveLocal id name (t r) L)) := by
  intro r L
  dsimp only
  rw [resolveLocal_as_over id name (t r) L]

mutual

theorem Resolver.resolveExpr_over : ∀ e : Expr, ParR (Resolver.resolveExpr e)
  | .variable id name => by
    have h := ParR.write
      (fun r =>
        if (!r.scopes.isEmpty &&
            (match r.scopes.head? with
             | some sc => rscopeGet sc name.lexeme = some false
             | none => false)) then
          Resolver.pushErr r "Cannot read local variable in its own initializer"
        else r)
      id name
    intro r L
    simp only [Resolver.resolveExpr]
    exact h r L
  | .assign id name op value => by
    have h := ParR.comp (Resolver.resolveExpr_over value)
      (ParR.write (fun r => r) id name)
    intro r L
    simp only [Resolver.resolveExpr]
    exact h r L
  | .binary left op right => by
    have h := ParR.comp (Resolver.resolveExpr_over left) (Resolver.resolveExpr_over right)
    intro r L
    simp only [Resolver.resolveExpr]
    exact h r L
  | .call callee paren args => by
    have h := ParR.comp (Resolver.resolveExpr_over callee) (Resolver.resolveExprs_over args)
    intro r L
    simp only [Resolver.resolveExpr]
    exact h r L
  | .grouping e => by
    have h := Resolver.resolveExpr_over e
    intro r L
    simp only [Resolver.resolveExpr]
    exact h r L
  | .logical left op right => by
    have h := ParR.comp (Resolver.resolveExpr_over left) (Resolver.resolveExpr_over right)
    intro r L
    simp only [Resolver.resolveExpr]
    exact h r L
  | .unary op right => by
    have h := Resolver.resolveExpr_over right
    intro r L
    simp only [Resolver.resolveExpr]
    exact h r L
  | .literal v => by
    have h := ParR.pure (fun r => r)
    intro r L
    simp only [Resolver.resolveExpr]
    exact h r L
  | .efunction n p b => by
    have h := ParR.pure (fun r => r)
    intro r L
    simp only [Resolver.resolveExpr]
    exact h r L
  | .get o n => by
    have h := ParR.pure (fun r => r)
    intro r L
    simp only [Resolver.resolveExpr]
    exact h r L
  | .eset o n v => by
    have h := ParR.pure (fun r => r)
    intro r L
    simp only [Resolver.resolveExpr]
    exact h r L
  | .ethis i k => by
    have h := ParR.pure (fun r => r)
    intro r L
    simp only [Resolver.resolveExpr]
    exact h r L

theorem Resolver.resolveExprs_over : ∀ es : List Expr, ParR (Resolver.resolveExprs es)
  | [] => by
    have h := ParR.pure (fun r => r)
    intro r L
    simp only [Resolver.resolveExprs]
    exact h r L
  | e :: es => by
    have h := ParR.comp (Resolver.resolveExpr_over e) (Resolver.resolveExprs_over es)
    intro r L
    simp only [Resolver.resolveExprs]
    exact h r L

theorem Resolver.resolveStmt_over : ∀ s : Stmt, ParR (Resolver.resolveStmt s)
  | .block stmts => by
    have h := ParR.wrap Resolver.beginScope (fun _ r1 => Resolver.endScope r1)
      (Resolver.resolveStmts_over stmts)
    intro r L
    simp only [Resolver.resolveStmt]
    exact h r L
  | .expression e => by
    have h := Resolver.resolveExpr_over e
    intro r L
    simp only [Resolver.resolveStmt]
    exact h r L
  | .svar name none => by
    have h := ParR.pure (fun r => Resolver.define name (Resolver.declare name r))
    intro r L
    simp only [Resolver.resolveStmt]
    exact h r L
  | .svar name (some e) => by
    have h := ParR.wrap (Resolver.declare name) (fun _ r2 => Resolver.define name r2)
      (Resolver.resolveExpr_over e)
    intro r L
    simp only [Resolver.resolveStmt]
    exact h r L
  | .sfunction (.efunction name params body) => by
    have h := ParR.pre (fun r => Resolver.define name (Resolver.declare name r))
      (Resolver.resolveFunction_over params body .FUNCTION)
    intro r L
    simp only [Resolver.resolveStmt]
    exact h r L
  | .sfunction (.assign a b c d) => by
    have h := ParR.pure (fun r => r)
    intro r L
    simp only [Resolver.resolveStmt]
    exact h r L
  | .sfunction (.binary a b c) => by
    have h := ParR.pure (fun r => r)
    intro r L
    simp only [Resolver.resolveStmt]
    exact h r L
  | .sfunction (.call a b c) => by
    have h := ParR.pure (fun r => r)
    intro r L
    simp only [Resolver.resolveStmt]
    exact h r L
  | .sfunction (.get a b) => by
    have h := ParR.pure (fun r => r)
    intro r L
    simp only [Resolver.resolveStmt]
    exact h r L
  | .sfunction (.grouping a) => by
    have h := ParR.pure (fun r => r)
    intro r L
    simp only [Resolver.resolveStmt]
    exact h r L
  | .sfunction (.literal a) => by
    have h := ParR.pure (fun r => r)
    intro r L
    simp only [Resolver.resolveStmt]
    exact h r L
  | .sfunction (.logical a b c) => by
    have h := ParR.pure (fun r => r)
    intro r L
    simp only [Resolver.resolveStmt]
    exact h r L
  | .sfunction (.eset a b c) => by
    have h := ParR.pure (fun r => r)
    intro r L
    simp only [Resolver.resolveStmt]
    exact h r L
  | .sfunction (.unary a b) => by
    have h := ParR.pure (fun r => r)
    intro r L
    simp only [Resolver.resolveStmt]
    exact h r L
  | .sfunction (.variable a b) => by
    have h := ParR.pure (fun r => r)
    intro r L
    simp only [Resolver.resolveStmt]
    exact h r L
  | .sfunction (.ethis a b) => by
    have h := ParR.pure (fun r => r)
    intro r L
    simp only [Resolver.resolveStmt]
    exact h r L
  | .sif cond thenB none => by
    have h := ParR.comp (Resolver.resolveExpr_over cond) (Resolver.resolveStmt_over thenB)
    intro r L
    simp only [Resolver.resolveStmt]
    exact h r L
  | .sif cond thenB (some e) => by
    have h := ParR.comp
      (ParR.comp (Resolver.resolveExpr_over cond) (Resolver.resolveStmt_over thenB))
      (Resolver.resolveStmt_over e)
    intro r L
    simp only [Resolver.resolveStmt]
    exact h r L
  | .sprint e => by
    have h := Resolver.resolveExpr_over e
    intro r L
    simp only [Resolver.resolveStmt]
    exact h r L
  | .sreturn kw none => by
    have h := ParR.pure (fun r =>
      if r.currentFunction = FunctionType.NONE then
        Resolver.pushErr r "Cannot return from top-level code."
      else r)
    intro r L
    simp only [Resolver.resolveStmt]
    exact h r L
  | .sreturn kw (some v) => by
    have h := ParR.pre
      (fun r =>
        if r.currentFunction = FunctionType.NONE then
          Resolver.pushErr r "Cannot return from top-level code."
        else r)
      (Resolver.resolveExpr_over v)
    intro r L
    simp only [Resolver.resolveStmt]
    exact h r L
  | .swhile cond body => by
    have h := ParR.wrap (fun r => { r with currentLoop := LoopType.LOOP })
      (fun r r3 => { r3 with currentLoop := r.currentLoop })
      (ParR.comp (Resolver.resolveExpr_over cond) (Resolver.resolveStmt_over body))
    intro r L
    simp only [Resolver.resolveStmt]
    exact h r L
  | .sbreak kw => by
    have h := ParR.pure (fun r =>
      if r.currentLoop = LoopType.NONE then
        Resolver.pushErr r "Cannot use \"break\" outside of a loop."
      else r)
    intro r L
    simp only [Resolver.resolveStmt]
    exact h r L
  | .scont kw => by
    have h := ParR.pure (fun r =>
      if r.currentLoop = LoopType.NONE then
        Resolver.pushErr r "Cannot use \"continue\" outside of a loop."
      else r)
    intro r L
    simp only [Resolver.resolveStmt]
    exact h r L
  | .sclass n m => by
    have h := ParR.pure (fun r => r)
    intro r L
    simp only [Resolver.resolveStmt]
    exact h r L

theorem Resolver.resolveStmts_over : ∀ ss : List Stmt, ParR (Resolver.resolveStmts ss)
  | [] => by
    have h := ParR.pure (fun r => r)
    intro r L
    simp only [Resolver.resolveStmts]
    exact h r L
  | s :: ss => by
    have h := ParR.comp (Resolver.resolveStmt_over s) (Resolver.resolveStmts_over ss)
    intro r L
    simp only [Resolver.resolveStmts]
    exact h r L

theorem Resolver.resolveFunction_over :
    ∀ (params : List Token) (body : List Stmt) (ftype : FunctionType),
      ParR (Resolver.resolveFunction params body ftype)
  | params, body, ftype => by
    have h := ParR.wrap
      (fun r =>
        params.foldl (fun acc p => Resolver.define p (Resolver.declare p acc))
          (Resolver.beginScope { r with currentFunction := ftype }))
      (fun r r3 => { Resolver.endScope r3 with currentFunction := r.currentFunction })
      (Resolver.resolveStmts_over body)
    intro r L
    simp only [Resolver.resolveFunction]
    exact h r L

end

/-- Relation between the two readings of the condition clause: the source
form (defaulting to a true-literal in place) factors through the
option-recording form. -/
theorem forCondClause_eq_opt (f : Nat) (st : PState) :
    Parser.forCondClause f st =
      (match Parser.forCondClauseOpt f st with
       | (some co, st') =>
         (some (match co with
                | some c => c
                | none => Expr.literal (.lbool true)), st')
       | (none, st') => (none, st')) := by
  cases f with
  | zero => rfl
  | succ f =>
    simp only [Parser.forCondClause, Parser.forCondClauseOpt]
    by_cases h : Parser.checkT st TT.SEMICOLON = true
    · simp [h]
    · simp only [if_neg h]
      rcases hE : Parser.expression f st with ⟨oe, ste⟩
      cases oe <;> simp [pbind]

/-! ## Claim theorems -/

/-- C1: the claim states that `or` short-circuits — with a falsy left
operand the right operand is evaluated and its value returned.  The code's
switch falls through: for `or` with a falsy left operand the `and` case's
guard fires and the LEFT operand is returned, and the right operand is
never evaluated.  Here `false or x` with `x` undefined evaluates to
`false` (no error), although evaluating `x` alone raises the
undefined-variable RuntimeError — so the right operand was not evaluated
and the result contradicts the claimed `or` semantics. -/
theorem logicalOr_fallthrough_returns_left :
    evaluate 3 initialState
        (.logical (.literal (.lbool false)) orTok (.variable 0 identTokX)) =
      (.cok (.vbool false), initialState) ∧
    evaluate 3 initialState (.variable 0 identTokX) =
      (.cerr identTokX (undefinedVarMsg "x"), initialState) := ⟨rfl, rfl⟩

/-- C2: the claim states that `print 1/0;` reaches a division-by-zero
runtime error, the scanner continuing right after a lone `/`.  In the code
the comment-skip loop of the `/` case runs even when a division token was
just emitted, so scanning `print 1/0;` consumes `0;` as if it were a
comment: the tokens are only PRINT, NUMBER, SLASH, EOF (with no scan
error), and parsing then fails at end-of-input with the static error
`Expect expression.` (the statement list is a single null) — the
interpreter never runs and no division-by-zero error can occur. -/
theorem scanner_slash_swallows_rest_of_line :
    (scanTokens "print 1/0;").1.map Token.ttype =
      [TT.PRINT, TT.NUMBER, TT.SLASH, TT.EOF] ∧
    (scanTokens "print 1/0;").2 = [] ∧
    (parseProgram 30 (scanTokens "print 1/0;").1).1 = [none] ∧
    (parseProgram 30 (scanTokens "print 1/0;").1).2.errs = ["Expect expression."] :=
  ⟨rfl, rfl, rfl, rfl⟩

/-- C3: every for-loop the parser accepts is produced as the while-loop
desugaring, with no dedicated for node (the `Stmt` type has no for
constructor): `forStatement` coincides with the spec-worded
`forStatementSpec`, which assembles `desugarFor` — a While of the given
condition (true-literal when the clause is omitted), body wrapped in a
Block appending the increment when present, the whole preceded by the
initializer in a Block when present. -/
theorem forStatement_eq_spec_desugaring (f : Nat) (st : PState) :
    Parser.forStatement f st = Parser.forStatementSpec f st := by
  cases f with
  | zero => rfl
  | succ f =>
    simp only [Parser.forStatement, Parser.forStatementSpec]
    rcases h1 : Parser.consume st TT.LEFT_PAREN "Expect \"(\" after \"for\"." with ⟨o1, st1⟩
    rcases o1 with _ | tk1
    · rfl
    simp only [pbind]
    rcases h2 : Parser.forInitClause f st1 with ⟨o2, st2⟩
    rcases o2 with _ | initOpt
    · rfl
    simp only [pbind]
    have hc := forCondClause_eq_opt f st2
    rcases h3 : Parser.forCondClauseOpt f st2 with ⟨o3, st3⟩
    rw [h3] at hc
    rw [hc]
    rcases o3 with _ | condOpt
    · rfl
    simp only [pbind]
    rcases h4 : Parser.consume st3 TT.SEMICOLON "Expect \";\" after loop condition." with ⟨o4, st4⟩
    rcases o4 with _ | tk4
    · rfl
    simp only [pbind]
    rcases h5 : Parser.forIncrClause f st4 with ⟨o5, st5⟩
    rcases o5 with _ | incrOpt
    · rfl
    simp only [pbind]
    rcases h6 : Parser.consume st5 TT.RIGHT_PAREN "Expect \")\" after for clauses." with ⟨o6, st6⟩
    rcases o6 with _ | tk6
    · rfl
    simp only [pbind]
    rcases h7 : Parser.statement f st6 with ⟨o7, st7⟩
    rcases o7 with _ | body
    · rfl
    simp only [pbind, desugarFor]

/-- C4: calling a class allocates a fresh instance (at the next heap index,
with the class attached and no fields); without an `init` method the call
returns that instance directly; with an `init` method, `init` is bound to
the new instance (`bindFn`) and invoked with the call's arguments
(`funCall`), and whatever value that invocation returns, the call still
evaluates to the new instance. -/
theorem classCall_creates_and_returns_fresh_instance
    (f : Nat) (k : ClassData) (args : List Value) (st : IState) :
    ((instAlloc k st).instances.getD st.instances.length defaultInst = ⟨k, []⟩) ∧
    (mapGet? k.methods "init" = none →
      classCall (f + 1) k args st =
        (.cok (.vinst st.instances.length), instAlloc k st)) ∧
    (∀ initializer, mapGet? k.methods "init" = some initializer →
      ∀ v st3,
        funCall f (bindFn initializer st.instances.length (instAlloc k st)).1 args
            (bindFn initializer st.instances.length (instAlloc k st)).2 = (.cok v, st3) →
        classCall (f + 1) k args st = (.cok (.vinst st.instances.length), st3)) := by
  refine ⟨?_, ?_, ?_⟩
  · simp [instAlloc, defaultInst, List.getD]
  · intro hno
    simp [classCall, hno, instAlloc]
  · intro initializer hsome v st3 hrun
    simp only [classCall, hsome]
    rw [hrun]

/-- C4 witness: a class without `init` returns the fresh instance; a class
with an empty-bodied `init` (whose invocation returns null, not the
instance) still returns the fresh instance, in the state left by the init
invocation. -/
theorem classCall_creates_and_returns_fresh_instance_witness :
    classCall 4 demoClassNoInit [] initialState =
      (.cok (.vinst 0), instAlloc demoClassNoInit initialState) ∧
    (instAlloc demoClassInit initialState).instances.getD 0 defaultInst =
      ⟨demoClassInit, []⟩ ∧
    classCall 4 demoClassInit [] initialState =
      (.cok (.vinst 0),
        (funCall 3 (bindFn (mkLoxFunction demoInitDecl 0 true) 0
            (instAlloc demoClassInit initialState)).1 []
          (bindFn (mkLoxFunction demoInitDecl 0 true) 0
            (instAlloc demoClassInit initialState)).2).2) := by
  refine ⟨?_, ?_, ?_⟩
  · exact (classCall_creates_and_returns_fresh_instance 3 demoClassNoInit [] initialState).2.1 rfl
  · exact (classCall_creates_and_returns_fresh_instance 3 demoClassInit [] initialState).1
  · exact (classCall_creates_and_returns_fresh_instance 3 demoClassInit [] initialState).2.2
      (mkLoxFunction demoInitDecl 0 true) rfl .vnull
      ((funCall 3 (bindFn (mkLoxFunction demoInitDecl 0 true) 0
          (instAlloc demoClassInit initialState)).1 []
        (bindFn (mkLoxFunction demoInitDecl 0 true) 0
          (instAlloc demoClassInit initialState)).2).2) rfl

/-- C5: evaluating a Binary `/`: non-numeric operands raise the generic
`Operands must be numbers` RuntimeError; numeric operands with a zero
divisor raise the dedicated `Cannot divide by zero.` RuntimeError (a
message distinct from the generic one); otherwise the numeric quotient is
returned. -/
theorem visitBinary_slash_semantics (f : Nat) (st st1 st2 : IState)
    (e1 e2 : Expr) (op : Token) (l r : Value)
    (hop : op.ttype = TT.SLASH)
    (h1 : evaluate f st e1 = (.cok l, st1))
    (h2 : evaluate f st1 e2 = (.cok r, st2)) :
    evaluate (f + 1) st (.binary e1 op e2) =
      (match numPair l r with
       | some (a, b) =>
         if b = 0 then (Ctl.cerr op "Cannot divide by zero.", st2)
         else (Ctl.cok (.vnum (a / b)), st2)
       | none => (Ctl.cerr op "Operands must be numbers", st2)) ∧
    "Cannot divide by zero." ≠ "Operands must be numbers" := by
  constructor
  · simp only [evaluate, h1, h2, hop]
  · decide

/-- C5 witness: `6 / 3` yields the quotient, `1 / 0` the dedicated
division-by-zero error, `"a" / 1` the generic operand-type error. -/
theorem visitBinary_slash_semantics_witness :
    evaluate 2 initialState
        (.binary (.literal (.lnum 6)) slashTok (.literal (.lnum 3))) =
      (.cok (.vnum ((6 : Rat) / 3)), initialState) ∧
    evaluate 2 initialState
        (.binary (.literal (.lnum 1)) slashTok (.literal (.lnum 0))) =
      (.cerr slashTok "Cannot divide by zero.", initialState) ∧
    evaluate 2 initialState
        (.binary (.literal (.lstr "a")) slashTok (.literal (.lnum 1))) =
      (.cerr slashTok "Operands must be numbers", initialState) := by
  refine ⟨?_, ?_, ?_⟩
  · have h := (visitBinary_slash_semantics 1 initialState initialState initialState
      (.literal (.lnum 6)) (.literal (.lnum 3)) slashTok (.vnum 6) (.vnum 3)
      rfl rfl rfl).1
    rw [h]
    norm_num [numPair]
  · have h := (visitBinary_slash_semantics 1 initialState initialState initialState
      (.literal (.lnum 1)) (.literal (.lnum 0)) slashTok (.vnum 1) (.vnum 0)
      rfl rfl rfl).1
    rw [h]
    norm_num [numPair]
  · have h := (visitBinary_slash_semantics 1 initialState initialState initialState
      (.literal (.lstr "a")) (.literal (.lnum 1)) slashTok (.vstr "a") (.vnum 1)
      rfl rfl rfl).1
    rw [h]
    norm_num [numPair]

/-- C6: evaluating a Call: a callee without the Callable capability raises
`Can only call functions and classes.` (before any argument is evaluated);
a callable callee with an argument count differing from its declared arity
raises the RuntimeError whose message carries both counts (`arityMsg`);
only when both checks pass is the callable invoked (`callValue`). -/
theorem visitCall_capability_and_arity_checks (f : Nat) (st st1 : IState)
    (e : Expr) (paren : Token) (args : List Expr) (c : Value)
    (hc : evaluate f st e = (.cok c, st1)) :
    (isCallable c = false →
      evaluate (f + 1) st (.call e paren args) =
        (.cerr paren "Can only call functions and classes.", st1)) ∧
    (isCallable c = true →
      ∀ vs st2, evalArgs f st1 args = (.ok vs, st2) →
        (vs.length ≠ arityOf c →
          evaluate (f + 1) st (.call e paren args) =
            (.cerr paren (arityMsg (arityOf c) vs.length), st2)) ∧
        (vs.length = arityOf c →
          evaluate (f + 1) st (.call e paren args) = callValue f c vs st2)) := by
  constructor
  · intro hnc
    simp [evaluate, hc, hnc]
  · intro hcall vs st2 hargs
    constructor
    · intro hne
      simp [evaluate, hc, hcall, hargs, hne]
    · intro heq
      simp [evaluate, hc, hcall, hargs, heq]

/-- C6 witness: calling `nil` raises the capability error; calling a
zero-parameter function literal with one argument raises
`Expected 0 arguments, but got 1.`; calling it with no arguments reaches
the invocation. -/
theorem visitCall_capability_and_arity_checks_witness :
    evaluate 3 initialState (.call (.literal .lnull) parenTok []) =
      (.cerr parenTok "Can only call functions and classes.", initialState) ∧
    evaluate 3 initialState
        (.call (.efunction fnNameTok [] []) parenTok [.literal (.lnum 1)]) =
      (.cerr parenTok (arityMsg 0 1), initialState) ∧
    evaluate 3 initialState (.call (.efunction fnNameTok [] []) parenTok []) =
      callValue 2 demoFnVal [] initialState := by
  refine ⟨?_, ?_, ?_⟩
  · exact (visitCall_capability_and_arity_checks 2 initialState initialState
      (.literal .lnull) parenTok [] .vnull rfl).1 rfl
  · exact ((visitCall_capability_and_arity_checks 2 initialState initialState
      (.efunction fnNameTok [] []) parenTok [.literal (.lnum 1)] demoFnVal rfl).2
      rfl [.vnum 1] initialState rfl).1 (by decide)
  · exact ((visitCall_capability_and_arity_checks 2 initialState initialState
      (.efunction fnNameTok [] []) parenTok [] demoFnVal rfl).2
      rfl [] initialState rfl).2 rfl

/-- C7: the truthiness predicate used by `if`, `while`, `!`, `and` and
`or` is false exactly on nil (null), the absent value (undefined), the
boolean false, and the number 0, and true on every other value. -/
theorem isTruthy_characterization (v : Value) :
    isTruthy v = false ↔
      (v = .vnull ∨ v = .vundefined ∨ v = .vbool false ∨ v = .vnum 0) := by
  cases v <;> simp [isTruthy]

/-- C8: whatever outcome the statements of a block produce — normal
completion, a RuntimeError, a Return/Break/Continue signal, or even fuel
exhaustion — `executeBlock` restores the interpreter's current-environment
pointer to exactly its value on entry (the source's `finally`). -/
theorem executeBlock_restores_environment
    (f : Nat) (stmts : List Stmt) (envRef : Nat) (st : IState) :
    ((execBlock f stmts envRef st).2).environment = st.environment := by
  cases f with
  | zero => rfl
  | succ f => simp [execBlock]

/-- C9: re-running a fresh Resolver over the identical tree leaves the
interpreter's locals map exactly as the first run left it: every (node,
distance) entry is re-recorded with the same distance and nothing is
added, removed or changed. -/
theorem resolver_second_run_same_locals (prog : List Stmt) (L : LocalsMap) :
    resolveProgram prog (resolveProgram prog L) = resolveProgram prog L := by
  have h := Resolver.resolveStmts_over prog
  unfold resolveProgram
  rw [h RState.initial L]
  dsimp only
  conv_lhs => rw [h RState.initial]
  dsimp only
  rw [locsOver_absorb]

/-- C10: a method retrieved through instance property lookup
(`LoxClass.findMethod`, which binds it with the two-argument `LoxFunction`
constructor) always has `isInitializer = false` — even a method named
`init` — so invoking it behaves exactly like `funCallNoCtor`: it returns a
propagating Return value or null, never the bound `this` through the
constructor-return path. -/
theorem bound_method_isInitializer_false (k : ClassData) (instRef : Nat)
    (name : String) (st : IState) (fn : FnData) (st' : IState)
    (h : findMethod k instRef name st = (some fn, st')) :
    fn.isInitializer = false ∧
    ∀ f args st2, funCall f fn args st2 = funCallNoCtor f fn args st2 := by
  rcases hm : mapGet? k.methods name with _ | m
  · rw [findMethod, hm] at h
    simp at h
  · rw [findMethod, hm] at h
    simp only [Prod.mk.injEq, Option.some.inj] at h
    have hfn : fn = (bindFn m instRef st).1 := by
      cases h with
      | intro h1 h2 => exact (Option.some.inj h1).symm
    have hinit : fn.isInitializer = false := by
      rw [hfn]
      rfl
    refine ⟨hinit, ?_⟩
    intro f args st2
    cases f with
    | zero => rfl
    | succ f =>
      simp only [funCall, funCallNoCtor, hinit]
      simp

/-- C10 witness: the `init` method of a concrete class, looked up through
the instance property path, is bound with a cleared constructor flag and
its invocation equals the constructor-path-free invocation. -/
theorem bound_method_isInitializer_false_witness :
    demoBound.isInitializer = false ∧
    funCall 3 demoBound [] initialState = funCallNoCtor 3 demoBound [] initialState := by
  have h := bound_method_isInitializer_false demoClassInit 0 "init" initialState demoBound
      ((findMethod demoClassInit 0 "init" initialState).2) rfl
  exact ⟨h.1, h.2 3 [] initialState⟩
